import Mathlib

/-!
Verification development for the WibeSocket WebSocket client core.

The C sources are shallowly embedded: bytes are `Nat` values (callers pass
values `< 256`; bit operations mirror the C expressions exactly), buffers are
`List Nat`, and each C function becomes a Lean function of the same name
(`ws_utf8_is_valid`, `ws_parse_header`, `ws_parser_feed`, `ws_build_frame`,
the SHA-1/base64 handshake primitives, the connection-engine operations and
the two ring-buffer revisions).  Machine-integer overflow is made explicit
with `&&& 0xFFFFFFFF` masks where the C relies on `uint32_t` wraparound.
-/

set_option maxRecDepth 10000
set_option maxHeartbeats 1600000

namespace WibeSocket

/-- C array indexing `buf[i]` on embedded byte buffers (`0` past the end; the
C code never reads past the bounds its guards establish). -/
def nth : List Nat → Nat → Nat
  | [], _ => 0
  | b :: _, 0 => b
  | _ :: t, i + 1 => nth t i

/-- Embeds `ws_utf8_is_valid` from `src/internal/utf8.c`: RFC 3629 validation
(no overlongs, no surrogates, max U+10FFFF), structured exactly as the C
`while` loop over 1/2/3/4-byte sequences. -/
def ws_utf8_is_valid : List Nat → Bool
  | [] => true
  | c :: rest =>
    if c < 0x80 then ws_utf8_is_valid rest
    else if c >>> 5 = 0x6 then
      match rest with
      | [] => false
      | c1 :: r =>
        if ¬ (c1 &&& 0xC0 = 0x80) then false
        else if (((c &&& 0x1F) <<< 6) ||| (c1 &&& 0x3F)) < 0x80 then false
        else ws_utf8_is_valid r
    else if c >>> 4 = 0xE then
      match rest with
      | c1 :: c2 :: r =>
        if ¬ (c1 &&& 0xC0 = 0x80) ∨ ¬ (c2 &&& 0xC0 = 0x80) then false
        else
          if (((c &&& 0x0F) <<< 12) ||| ((c1 &&& 0x3F) <<< 6) ||| (c2 &&& 0x3F)) < 0x800 then false
          else if 0xD800 ≤ (((c &&& 0x0F) <<< 12) ||| ((c1 &&& 0x3F) <<< 6) ||| (c2 &&& 0x3F)) ∧
                   (((c &&& 0x0F) <<< 12) ||| ((c1 &&& 0x3F) <<< 6) ||| (c2 &&& 0x3F)) ≤ 0xDFFF then false
          else ws_utf8_is_valid r
      | _ => false
    else if c >>> 3 = 0x1E then
      match rest with
      | c1 :: c2 :: c3 :: r =>
        if ¬ (c1 &&& 0xC0 = 0x80) ∨ ¬ (c2 &&& 0xC0 = 0x80) ∨ ¬ (c3 &&& 0xC0 = 0x80) then false
        else
          if (((c &&& 0x07) <<< 18) ||| ((c1 &&& 0x3F) <<< 12) |||
              ((c2 &&& 0x3F) <<< 6) ||| (c3 &&& 0x3F)) < 0x10000 then false
          else if 0x10FFFF < (((c &&& 0x07) <<< 18) ||| ((c1 &&& 0x3F) <<< 12) |||
              ((c2 &&& 0x3F) <<< 6) ||| (c3 &&& 0x3F)) then false
          else ws_utf8_is_valid r
      | _ => false
    else false

/-- Embeds `ws_is_valid_close_code` from `src/parser.c` (lines 12-18): only the
nine enumerated codes are accepted; everything else, including 3000-4999, is
rejected. -/
def ws_is_valid_close_code (code : Nat) : Bool :=
  code == 1000 || code == 1001 || code == 1002 || code == 1003 ||
  code == 1007 || code == 1008 || code == 1009 || code == 1010 ||
  code == 1011

/-- `ws_parser_status_t` error half (`WS_PARSER_ERROR_PROTOCOL` / `WS_PARSER_ERROR_TOO_LARGE`). -/
inductive PError where
  | protocol
  | tooLarge
  deriving DecidableEq, Repr

/-- The decoded frame header (`ws_frame_header_t`). -/
structure FrameHeader where
  fin : Bool
  rsv : Nat
  opcode : Nat
  masked : Bool
  payloadLen : Nat
  maskKey : List Nat
  deriving DecidableEq, Repr

/-- The incremental parser state (`ws_parser_t`).  `hdrBytes` is the header
accumulator (`hdr_bytes` together with `hdr_have = hdrBytes.length`);
the decoded `cur` header is not stored because `ws_parse_header` recomputes
every field of it deterministically from `hdr_bytes` on each call. -/
structure Parser where
  maxFrameSize : Nat
  hdrBytes : List Nat
  hdrNeed : Nat
  payloadRead : Nat
  inFragmentedMessage : Bool
  firstFragmentOpcode : Nat
  deriving DecidableEq, Repr

/-- Embeds `ws_parser_init`: zero state, default 1 MiB `max_frame_size`, first
two header bytes requested. -/
def ws_parser_init (maxFrameSize : Nat) : Parser :=
  { maxFrameSize := if maxFrameSize = 0 then 2 ^ 20 else maxFrameSize
    hdrBytes := []
    hdrNeed := 2
    payloadRead := 0
    inFragmentedMessage := false
    firstFragmentOpcode := 0 }

/-- Result of `ws_parse_header`: `0` (more header bytes needed, with the
updated `hdr_need`), a negative error status, or `1` with the decoded header. -/
inductive HdrResult where
  | more (need : Nat)
  | err (e : PError)
  | done (h : FrameHeader)
  deriving DecidableEq, Repr

/-- Mask/control/size tail of `ws_parse_header` (lines 58-74 of
`src/parser.c`), after the payload length has been decoded.  `afterLen` is the
header offset just past the length bytes. -/
def ws_parse_header_rest (p : Parser) (fin : Bool) (opcode : Nat) (masked : Bool)
    (payloadLen afterLen : Nat) : HdrResult :=
  if masked ∧ p.hdrBytes.length < afterLen + 4 then .more (afterLen + 4)
  else if opcode &&& 0x8 ≠ 0 ∧ fin = false then .err .protocol
  else if opcode &&& 0x8 ≠ 0 ∧ 125 < payloadLen then .err .protocol
  else if p.maxFrameSize < payloadLen then .err .tooLarge
  else .done { fin := fin, rsv := 0, opcode := opcode, masked := masked,
               payloadLen := payloadLen,
               maskKey := if masked then (p.hdrBytes.drop afterLen).take 4 else [] }

/-- Embeds `ws_parse_header` (lines 26-75 of `src/parser.c`). -/
def ws_parse_header (p : Parser) : HdrResult :=
  if p.hdrBytes.length < p.hdrNeed then .more p.hdrNeed
  else
    let h := p.hdrBytes
    let b0 := nth h 0
    let b1 := nth h 1
    let fin := decide ((b0 &&& 0x80) ≠ 0)
    let rsv := (b0 >>> 4) &&& 0x07
    let opcode := b0 &&& 0x0F
    let masked := decide ((b1 &&& 0x80) ≠ 0)
    let plen7 := b1 &&& 0x7F
    if rsv ≠ 0 then .err .protocol
    else if 0x3 ≤ opcode ∧ opcode ≤ 0x7 then .err .protocol
    else if 0xB ≤ opcode then .err .protocol
    else if plen7 ≤ 125 then
      ws_parse_header_rest p fin opcode masked plen7 2
    else if plen7 = 126 then
      if h.length < 4 then .more 4
      else ws_parse_header_rest p fin opcode masked (((nth h 2) <<< 8) ||| nth h 3) 4
    else
      if h.length < 10 then .more 10
      else
        let v := (List.range 8).foldl (fun v i => (v <<< 8) ||| nth h (2 + i)) 0
        if nth h 2 &&& 0x80 ≠ 0 then .err .protocol
        else ws_parse_header_rest p fin opcode masked v 10

theorem ws_parse_header_rest_more {p : Parser} {fin : Bool} {opcode : Nat} {masked : Bool}
    {payloadLen afterLen n : Nat}
    (h : ws_parse_header_rest p fin opcode masked payloadLen afterLen = .more n) :
    p.hdrBytes.length < n := by
  simp only [ws_parse_header_rest] at h
  split at h
  · next hc =>
    simp only [HdrResult.more.injEq] at h
    omega
  · repeat' split at h
    all_goals simp at h

/-- Every "need more" answer of `ws_parse_header` asks for strictly more
header bytes than are already accumulated (each `return 0` site in the C is
guarded by `hdr_have < need`). -/
theorem ws_parse_header_more {p : Parser} {n : Nat}
    (h : ws_parse_header p = .more n) : p.hdrBytes.length < n := by
  simp only [ws_parse_header] at h
  split at h
  · next hc =>
    simp only [HdrResult.more.injEq] at h
    omega
  · repeat' split at h
    all_goals first
      | exact ws_parse_header_rest_more h
      | (simp only [HdrResult.more.injEq] at h; omega)
      | simp at h

/-- Outcome of the header-accumulation loop at the top of `ws_parser_feed`
(lines 86-100 of `src/parser.c`): either the input ran out (`NEED_MORE`), the
header was rejected, or the header is complete and `rest` holds the bytes not
yet consumed.  `consumed` counts bytes taken from the input. -/
inductive HeaderFeed where
  | needMore (consumed : Nat) (p : Parser)
  | err (e : PError) (consumed : Nat) (p : Parser)
  | done (h : FrameHeader) (consumed : Nat) (p : Parser) (rest : List Nat)
  deriving DecidableEq, Repr

/-- The header-accumulation loop of `ws_parser_feed`: copy bytes into
`hdr_bytes` until `hdr_have == hdr_need`, run `ws_parse_header`, and keep
copying when it raises `hdr_need`.  The C copies bytes in an inner `while`
and re-runs `ws_parse_header` each time the accumulator reaches `hdr_need`;
this is that loop unrolled one input byte at a time (structural recursion on
`data`), which performs the identical byte copies and the identical sequence
of decisive `ws_parse_header` calls. -/
def ws_feed_header (p : Parser) (data : List Nat) (consumed : Nat) : HeaderFeed :=
  if p.hdrBytes.length < p.hdrNeed then
    match data with
    | [] => .needMore consumed p
    | b :: rest => ws_feed_header { p with hdrBytes := p.hdrBytes ++ [b] } rest (consumed + 1)
  else
    match ws_parse_header p with
    | .err e => .err e consumed p
    | .done hdr => .done hdr consumed p data
    | .more n =>
      match data with
      | [] => .needMore consumed { p with hdrNeed := n }
      | b :: rest =>
        ws_feed_header { p with hdrBytes := p.hdrBytes ++ [b], hdrNeed := n } rest (consumed + 1)

/-- `ws_parsed_frame_t`: the completed-frame view handed to the caller.
`payload` is the zero-copy view of the payload bytes consumed *in the feed
call that completed the frame* (the C comment: "could be less than total if
spread across feeds"). -/
structure ParsedFrame where
  type : Nat
  payload : List Nat
  isFinal : Bool
  deriving DecidableEq, Repr

/-- Result of one `ws_parser_feed` call: status, bytes consumed from the input
slice, the partial-payload view exposed through `out_payload` (for
`NEED_MORE`), and the updated parser. -/
inductive FeedResult where
  | needMore (consumed : Nat) (view : List Nat) (p : Parser)
  | frame (consumed : Nat) (f : ParsedFrame) (p : Parser)
  | err (e : PError) (consumed : Nat) (p : Parser)
  deriving DecidableEq, Repr

/-- Fragmentation tracking on frame completion (lines 128-141 of
`src/parser.c`); `none` is the `ERROR_PROTOCOL` return. -/
def ws_frag_track (p : Parser) (hdr : FrameHeader) : Option Parser :=
  if hdr.opcode &&& 0x8 ≠ 0 then some p
  else if hdr.opcode = 0x0 then
    if ¬ p.inFragmentedMessage then none
    else if hdr.fin then some { p with inFragmentedMessage := false }
    else some p
  else
    if p.inFragmentedMessage then none
    else if ¬ hdr.fin then
      some { p with inFragmentedMessage := true, firstFragmentOpcode := hdr.opcode }
    else some p

/-- Frame completion (lines 121-169 of `src/parser.c`): fragmentation
tracking, UTF-8 validation of the view delivered in this call, CLOSE-frame
payload rules, and the state reset for the next frame.  `view` is
`f.payload`/`f.payload_len` of the C, `hdr.payloadLen` is `p->cur.payload_len`. -/
def ws_parser_complete (p : Parser) (hdr : FrameHeader) (view : List Nat)
    (consumed : Nat) : FeedResult :=
  match ws_frag_track p hdr with
  | none => .err .protocol consumed p
  | some p1 =>
    if (hdr.opcode = 0x1 ∨ (hdr.opcode = 0x0 ∧ p1.firstFragmentOpcode = 0x1)) ∧
        0 < view.length ∧ ws_utf8_is_valid view = false then
      .err .protocol consumed p1
    else if hdr.opcode = 0x8 ∧ hdr.payloadLen = 1 then
      .err .protocol consumed p1
    else if hdr.opcode = 0x8 ∧ 2 ≤ hdr.payloadLen ∧
        (ws_is_valid_close_code ((nth view 0 <<< 8) ||| nth view 1) = false ∨
         (0 < view.length - 2 ∧ ws_utf8_is_valid (view.drop 2) = false)) then
      .err .protocol consumed p1
    else
      .frame consumed { type := hdr.opcode, payload := view, isFinal := hdr.fin }
        { p1 with hdrBytes := [], hdrNeed := 2, payloadRead := 0 }

/-- Embeds `ws_parser_feed` (lines 77-170 of `src/parser.c`): header
accumulation, payload consumption with a zero-copy view of the bytes taken in
this call, then frame completion. -/
def ws_parser_feed (p : Parser) (data : List Nat) : FeedResult :=
  match ws_feed_header p data 0 with
  | .err e consumed p' => .err e consumed p'
  | .needMore consumed p' => .needMore consumed [] p'
  | .done hdr consumed p' rest =>
    let take := min (hdr.payloadLen - p'.payloadRead) rest.length
    let view := rest.take take
    let p2 := { p' with payloadRead := p'.payloadRead + take }
    if p2.payloadRead < hdr.payloadLen then
      .needMore (consumed + take) view p2
    else
      ws_parser_complete p2 hdr view (consumed + take)

/- Sanity checks against the spec's literal end-to-end scenarios. -/

example :  -- spec §8 scenario 3: 0x82 0x03 0x01 0x02 0x03
    ws_parser_feed (ws_parser_init 0) [0x82, 0x03, 0x01, 0x02, 0x03] =
      .frame 5 ⟨0x2, [1, 2, 3], true⟩ (ws_parser_init 0) := by
  decide

example :  -- spec §8 scenario 5: PING with FIN=0 is a protocol error
    ws_parser_feed (ws_parser_init 0) [0x09, 0x00] =
      .err .protocol 2 ⟨2 ^ 20, [0x09, 0x00], 2, 0, false, 0⟩ := by
  decide

example :  -- spec §8 scenario 4: extended 16-bit length 200
    ws_parser_feed (ws_parser_init 0) (0x82 :: 0x7E :: 0x00 :: 0xC8 :: List.replicate 200 0xAB) =
      .frame 204 ⟨0x2, List.replicate 200 0xAB, true⟩ (ws_parser_init 0) := by
  decide

/-- Payload length denoted by a complete header accumulator, decoded as in
`ws_parse_header` (7-bit, big-endian 16-bit after 126, big-endian 64-bit
after 127). -/
def hdrPayloadLen (h : List Nat) : Nat :=
  if nth h 1 &&& 0x7F ≤ 125 then nth h 1 &&& 0x7F
  else if nth h 1 &&& 0x7F = 126 then (nth h 2 <<< 8) ||| nth h 3
  else (List.range 8).foldl (fun v i => (v <<< 8) ||| nth h (2 + i)) 0

/-- Header offset just past the length bytes (`after_len` in the C). -/
def hdrAfterLen (h : List Nat) : Nat :=
  if nth h 1 &&& 0x7F ≤ 125 then 2 else if nth h 1 &&& 0x7F = 126 then 4 else 10

/-- Total header length implied by the first two bytes: base and extended
length bytes plus 4 mask bytes when the MASK bit is set. -/
def hdrTotalLen (h : List Nat) : Nat :=
  hdrAfterLen h + (if nth h 1 &&& 0x80 ≠ 0 then 4 else 0)

theorem and_fifteen_lt (b : Nat) : b &&& 0x0F ≤ 15 := Nat.and_le_right

theorem and8_ne_iff {op : Nat} (hle : op ≤ 15) : op &&& 8 ≠ 0 ↔ 8 ≤ op := by
  interval_cases op <;> decide

theorem and127_le (b : Nat) : b &&& 0x7F ≤ 127 := Nat.and_le_right

/-- On a complete header accumulator (all staged bytes present),
`ws_parse_header` decides, and its answer is the C's check cascade over the
decoded fields. -/
theorem ws_parse_header_of_complete (p : Parser)
    (hn : p.hdrNeed ≤ p.hdrBytes.length)
    (hc : hdrTotalLen p.hdrBytes ≤ p.hdrBytes.length) :
    ws_parse_header p =
      (if (nth p.hdrBytes 0 >>> 4) &&& 0x07 ≠ 0 then .err .protocol
       else if 3 ≤ nth p.hdrBytes 0 &&& 0x0F ∧ nth p.hdrBytes 0 &&& 0x0F ≤ 7 then
         .err .protocol
       else if 0xB ≤ nth p.hdrBytes 0 &&& 0x0F then .err .protocol
       else if nth p.hdrBytes 1 &&& 0x7F = 127 ∧ nth p.hdrBytes 2 &&& 0x80 ≠ 0 then
         .err .protocol
       else if (nth p.hdrBytes 0 &&& 0x0F) &&& 0x8 ≠ 0 ∧ nth p.hdrBytes 0 &&& 0x80 = 0 then
         .err .protocol
       else if (nth p.hdrBytes 0 &&& 0x0F) &&& 0x8 ≠ 0 ∧ 125 < hdrPayloadLen p.hdrBytes then
         .err .protocol
       else if p.maxFrameSize < hdrPayloadLen p.hdrBytes then .err .tooLarge
       else .done { fin := decide (nth p.hdrBytes 0 &&& 0x80 ≠ 0), rsv := 0,
                    opcode := nth p.hdrBytes 0 &&& 0x0F,
                    masked := decide (nth p.hdrBytes 1 &&& 0x80 ≠ 0),
                    payloadLen := hdrPayloadLen p.hdrBytes,
                    maskKey := if nth p.hdrBytes 1 &&& 0x80 ≠ 0 then
                        (p.hdrBytes.drop (hdrAfterLen p.hdrBytes)).take 4 else [] }) := by
  have hnot : ¬ p.hdrBytes.length < p.hdrNeed := Nat.not_lt.mpr hn
  simp only [hdrTotalLen, hdrAfterLen] at hc
  simp only [ws_parse_header, if_neg hnot]
  by_cases hrsv : (nth p.hdrBytes 0 >>> 4) &&& 0x07 ≠ 0
  · rw [if_pos hrsv, if_pos hrsv]
  rw [if_neg hrsv, if_neg hrsv]
  by_cases h37 : 3 ≤ nth p.hdrBytes 0 &&& 0x0F ∧ nth p.hdrBytes 0 &&& 0x0F ≤ 7
  · rw [if_pos h37, if_pos h37]
  rw [if_neg h37, if_neg h37]
  by_cases hB : 0xB ≤ nth p.hdrBytes 0 &&& 0x0F
  · rw [if_pos hB, if_pos hB]
  rw [if_neg hB, if_neg hB]
  rcases Nat.lt_or_ge (nth p.hdrBytes 1 &&& 0x7F) 126 with h125 | hge
  · -- 7-bit length
    have hA : nth p.hdrBytes 1 &&& 0x7F ≤ 125 := by omega
    have h127 : ¬ (nth p.hdrBytes 1 &&& 0x7F = 127 ∧ nth p.hdrBytes 2 &&& 0x80 ≠ 0) := by
      omega
    have hplen : hdrPayloadLen p.hdrBytes = nth p.hdrBytes 1 &&& 0x7F := by
      rw [hdrPayloadLen, if_pos hA]
    rw [if_pos hA, if_neg h127, ws_parse_header_rest]
    rw [if_pos hA] at hc
    by_cases hm : nth p.hdrBytes 1 &&& 0x80 ≠ 0
    · rw [if_pos hm] at hc
      have h6 : ¬ p.hdrBytes.length < 2 + 4 := by omega
      simp [hm, h6, hplen, hdrAfterLen, hA]
    · rw [if_neg hm] at hc
      simp [hm, hplen, hdrAfterLen, hA]
  rcases Nat.eq_or_lt_of_le hge with h126 | h127v
  · -- 16-bit length
    have h126' : nth p.hdrBytes 1 &&& 0x7F = 126 := h126.symm
    have hA : ¬ nth p.hdrBytes 1 &&& 0x7F ≤ 125 := by omega
    have h127 : ¬ (nth p.hdrBytes 1 &&& 0x7F = 127 ∧ nth p.hdrBytes 2 &&& 0x80 ≠ 0) := by
      omega
    have hplen : hdrPayloadLen p.hdrBytes =
        (nth p.hdrBytes 2 <<< 8) ||| nth p.hdrBytes 3 := by
      rw [hdrPayloadLen, if_neg hA, if_pos h126']
    rw [if_neg hA, if_pos h126'] at hc ⊢
    rw [if_neg (by omega : ¬ p.hdrBytes.length < 4), ws_parse_header_rest, if_neg h127]
    by_cases hm : nth p.hdrBytes 1 &&& 0x80 ≠ 0
    · rw [if_pos hm] at hc
      have h8 : ¬ p.hdrBytes.length < 4 + 4 := by omega
      simp [hm, h8, hplen, hdrAfterLen, hA, h126']
    · rw [if_neg hm] at hc
      simp [hm, hplen, hdrAfterLen, hA, h126']
  · -- 64-bit length
    have h127' : nth p.hdrBytes 1 &&& 0x7F = 127 := by
      have := and127_le (nth p.hdrBytes 1)
      omega
    have hA : ¬ nth p.hdrBytes 1 &&& 0x7F ≤ 125 := by omega
    have hA6 : ¬ nth p.hdrBytes 1 &&& 0x7F = 126 := by omega
    have hplen : hdrPayloadLen p.hdrBytes =
        (List.range 8).foldl (fun v i => (v <<< 8) ||| nth p.hdrBytes (2 + i)) 0 := by
      rw [hdrPayloadLen, if_neg hA, if_neg hA6]
    rw [if_neg hA, if_neg hA6] at hc ⊢
    rw [if_neg (by omega : ¬ p.hdrBytes.length < 10)]
    by_cases hmsb : nth p.hdrBytes 2 &&& 0x80 ≠ 0
    · rw [if_pos hmsb, if_pos ⟨h127', hmsb⟩]
    rw [if_neg hmsb, if_neg (by simp [h127', hmsb] : ¬ (nth p.hdrBytes 1 &&& 0x7F = 127 ∧
        nth p.hdrBytes 2 &&& 0x80 ≠ 0))]
    rw [ws_parse_header_rest]
    by_cases hm : nth p.hdrBytes 1 &&& 0x80 ≠ 0
    · rw [if_pos hm] at hc
      have h14 : ¬ p.hdrBytes.length < 10 + 4 := by omega
      simp [hm, h14, hplen, hdrAfterLen, hA, hA6]
    · rw [if_neg hm] at hc
      simp [hm, hplen, hdrAfterLen, hA, hA6]

/-- **C1.** Once a frame header is complete (the accumulator holds all staged
bytes), the parser rejects it deterministically: non-zero RSV bits yield
`ERROR_PROTOCOL`; an opcode in `0x3`-`0x7` or `0xB`-`0xF` yields
`ERROR_PROTOCOL`; a control opcode (bit 3 set) with FIN=0 yields
`ERROR_PROTOCOL`; a control opcode with payload length > 125 yields
`ERROR_PROTOCOL`; and — when the protocol checks that the code applies first
all pass — a payload length greater than the configured `max_frame_size`
yields `ERROR_TOO_LARGE`. -/
theorem C1_header_rejection (p : Parser)
    (hn : p.hdrNeed ≤ p.hdrBytes.length)
    (hc : hdrTotalLen p.hdrBytes ≤ p.hdrBytes.length) :
    ((nth p.hdrBytes 0 >>> 4) &&& 0x07 ≠ 0 → ws_parse_header p = .err .protocol) ∧
    ((3 ≤ nth p.hdrBytes 0 &&& 0x0F ∧ nth p.hdrBytes 0 &&& 0x0F ≤ 7) ∨
        0xB ≤ nth p.hdrBytes 0 &&& 0x0F → ws_parse_header p = .err .protocol) ∧
    (0x8 ≤ nth p.hdrBytes 0 &&& 0x0F → nth p.hdrBytes 0 &&& 0x80 = 0 →
        ws_parse_header p = .err .protocol) ∧
    (0x8 ≤ nth p.hdrBytes 0 &&& 0x0F → 125 < hdrPayloadLen p.hdrBytes →
        ws_parse_header p = .err .protocol) ∧
    ((nth p.hdrBytes 0 >>> 4) &&& 0x07 = 0 →
     (nth p.hdrBytes 0 &&& 0x0F < 3 ∨
        (7 < nth p.hdrBytes 0 &&& 0x0F ∧ nth p.hdrBytes 0 &&& 0x0F < 0xB)) →
     (0x8 ≤ nth p.hdrBytes 0 &&& 0x0F →
        nth p.hdrBytes 0 &&& 0x80 ≠ 0 ∧ hdrPayloadLen p.hdrBytes ≤ 125) →
     (nth p.hdrBytes 1 &&& 0x7F = 127 → nth p.hdrBytes 2 &&& 0x80 = 0) →
     p.maxFrameSize < hdrPayloadLen p.hdrBytes →
     ws_parse_header p = .err .tooLarge) := by
  have hbit := and8_ne_iff (show nth p.hdrBytes 0 &&& 0x0F ≤ 15 from Nat.and_le_right)
  rw [ws_parse_header_of_complete p hn hc]
  simp only [hbit]
  refine ⟨fun h1 => ?_, fun h2 => ?_, fun h3a h3b => ?_, fun h4a h4b => ?_,
    fun h5a h5b h5c h5d h5e => ?_⟩ <;>
    split_ifs <;> first | rfl | omega

/-- Witness for C1 at the concrete header `0x19 0x00` (RSV = 1). -/
theorem C1_header_rejection_witness :
    ws_parse_header ⟨2 ^ 20, [0x19, 0x00], 2, 0, false, 0⟩ = .err .protocol :=
  (C1_header_rejection ⟨2 ^ 20, [0x19, 0x00], 2, 0, false, 0⟩ (by decide) (by decide)).1
    (by decide)

theorem and127_of_lt {b : Nat} (h : b < 128) : b &&& 127 = b := by
  have h2 : b &&& 2 ^ 7 - 1 = b % 2 ^ 7 := by
    have := Nat.and_pow_two_sub_one_eq_mod b 7
    omega
  have h3 : b &&& (2 ^ 7 - 1) = b % 2 ^ 7 := Nat.and_pow_two_sub_one_eq_mod b 7
  calc b &&& 127 = b &&& (2 ^ 7 - 1) := by norm_num
    _ = b % 2 ^ 7 := h3
    _ = b := Nat.mod_eq_of_lt (by omega)

theorem and128_of_lt {b : Nat} (h : b < 128) : b &&& 128 = 0 := by
  have h1 : b.testBit 7 = false := Nat.testBit_eq_false_of_lt (by omega)
  have h2 := Nat.and_two_pow b 7
  rw [h1] at h2
  simpa using h2

theorem nth_cons_zero (a : Nat) (l : List Nat) : nth (a :: l) 0 = a := rfl

theorem nth_cons_succ (a : Nat) (l : List Nat) (i : Nat) : nth (a :: l) (i + 1) = nth l i := rfl

/-- One byte-copy step of the header loop. -/
theorem ws_feed_header_cons {p : Parser} (hlt : p.hdrBytes.length < p.hdrNeed)
    (b : Nat) (rest : List Nat) (c : Nat) :
    ws_feed_header p (b :: rest) c =
      ws_feed_header { p with hdrBytes := p.hdrBytes ++ [b] } rest (c + 1) := by
  rw [ws_feed_header.eq_def, if_pos hlt]

/-- When the accumulator already holds `hdr_need` bytes, the loop consults
`ws_parse_header`. -/
theorem ws_feed_header_full {p : Parser} (hge : ¬ p.hdrBytes.length < p.hdrNeed)
    (data : List Nat) (c : Nat) :
    ws_feed_header p data c =
      (match ws_parse_header p with
       | .err e => .err e c p
       | .done hdr => .done hdr c p data
       | .more n =>
         match data with
         | [] => .needMore c { p with hdrNeed := n }
         | b :: rest =>
           ws_feed_header { p with hdrBytes := p.hdrBytes ++ [b], hdrNeed := n } rest (c + 1)) := by
  rw [ws_feed_header.eq_def, if_neg hge]

/-- A fresh parser consumes the two base header bytes and then decides. -/
theorem ws_feed_header_fresh (p : Parser) (hB : p.hdrBytes = []) (hN : p.hdrNeed = 2)
    (b0 b1 : Nat) (rest : List Nat) :
    ws_feed_header p (b0 :: b1 :: rest) 0 =
      ws_feed_header { p with hdrBytes := [b0, b1] } rest 2 := by
  rw [ws_feed_header_cons (by simp [hB, hN]), ws_feed_header_cons (by simp [hB, hN])]
  simp [hB]

theorem ws_parse_header_close_small (L : Nat) (hL : L ≤ 125) :
    ws_parse_header ⟨2 ^ 20, [0x88, L], 2, 0, false, 0⟩ =
      .done ⟨true, 0, 8, false, L, []⟩ := by
  have hand : L &&& 127 = L := and127_of_lt (by omega)
  have hand2 : L &&& 128 = 0 := and128_of_lt (by omega)
  rw [ws_parse_header_of_complete _ (by simp)
    (by simp [hdrTotalLen, hdrAfterLen, nth, hand, hand2, hL])]
  simp [nth, hdrPayloadLen, hdrAfterLen, hand, hand2, hL,
    (show (8 &&& 7 : Nat) = 0 from rfl), (show (136 &&& 15 : Nat) = 8 from rfl),
    (show ¬ 125 < L by omega), (show ¬ 2 ^ 20 < L by omega)]
  omega

/-- Feeding a whole unmasked CLOSE frame (payload ≤ 125 bytes) to a fresh
parser runs the header and payload phases and lands in the frame-completion
checks. -/
theorem ws_parser_feed_close_run (payload : List Nat) (hL : payload.length ≤ 125) :
    ws_parser_feed (ws_parser_init 0) (0x88 :: payload.length :: payload) =
      ws_parser_complete ⟨2 ^ 20, [0x88, payload.length], 2, payload.length, false, 0⟩
        ⟨true, 0, 8, false, payload.length, []⟩ payload (2 + payload.length) := by
  rw [ws_parser_feed]
  rw [show (ws_parser_init 0) = ⟨2 ^ 20, [], 2, 0, false, 0⟩ by rfl]
  rw [ws_feed_header_fresh _ rfl rfl, ws_feed_header_full (by simp),
    ws_parse_header_close_small _ hL]
  simp [List.take_length]

/-- **C5 (amended).** For every CLOSE frame completed in a single feed call:
payload length 1 yields `ERROR_PROTOCOL`; length 0 is accepted; for length
≥ 2 the first two bytes decode big-endian as the close code, the nine codes
accepted by `ws_is_valid_close_code` are accepted exactly when any remaining
reason bytes are valid UTF-8, any other code — including all of 3000-4999 —
yields `ERROR_PROTOCOL`, and a non-UTF-8 reason yields `ERROR_PROTOCOL`. -/
theorem C5_close_rules (payload : List Nat) (hL : payload.length ≤ 125)
    (hb : ∀ b ∈ payload, b < 256) :
    (payload.length = 1 →
      ws_parser_feed (ws_parser_init 0) (0x88 :: payload.length :: payload) =
        .err .protocol (2 + payload.length)
          ⟨2 ^ 20, [0x88, payload.length], 2, payload.length, false, 0⟩) ∧
    (payload.length = 0 →
      ws_parser_feed (ws_parser_init 0) (0x88 :: payload.length :: payload) =
        .frame 2 ⟨8, [], true⟩ ⟨2 ^ 20, [], 2, 0, false, 0⟩) ∧
    (2 ≤ payload.length →
      (ws_is_valid_close_code ((nth payload 0 <<< 8) ||| nth payload 1) = true →
       (payload.length = 2 ∨ ws_utf8_is_valid (payload.drop 2) = true) →
        ws_parser_feed (ws_parser_init 0) (0x88 :: payload.length :: payload) =
          .frame (2 + payload.length) ⟨8, payload, true⟩ ⟨2 ^ 20, [], 2, 0, false, 0⟩) ∧
      (ws_is_valid_close_code ((nth payload 0 <<< 8) ||| nth payload 1) = false →
        ws_parser_feed (ws_parser_init 0) (0x88 :: payload.length :: payload) =
          .err .protocol (2 + payload.length)
            ⟨2 ^ 20, [0x88, payload.length], 2, payload.length, false, 0⟩) ∧
      (2 < payload.length → ws_utf8_is_valid (payload.drop 2) = false →
        ws_parser_feed (ws_parser_init 0) (0x88 :: payload.length :: payload) =
          .err .protocol (2 + payload.length)
            ⟨2 ^ 20, [0x88, payload.length], 2, payload.length, false, 0⟩)) := by
  rw [ws_parser_feed_close_run payload hL]
  refine ⟨fun h1 => ?_, fun h0 => ?_, fun h2 => ⟨fun hcv hreason => ?_, fun hcv => ?_, fun h3 hut => ?_⟩⟩
  · simp [ws_parser_complete, ws_frag_track, h1]
  · have : payload = [] := List.length_eq_zero.mp h0
    subst this
    simp [ws_parser_complete, ws_frag_track]
  · rcases hreason with h2' | hut
    · have hd : payload.drop 2 = [] := by
        apply List.drop_eq_nil_of_le
        omega
      simp [ws_parser_complete, ws_frag_track, hcv, hd, h2, (show ¬ payload.length = 1 by omega)]
      exact fun _ => rfl
    · simp [ws_parser_complete, ws_frag_track, hcv, hut, h2, (show ¬ payload.length = 1 by omega)]
  · simp [ws_parser_complete, ws_frag_track, hcv, h2, (show ¬ payload.length = 1 by omega)]
  · have hlen : 0 < payload.length - 2 := by omega
    simp [ws_parser_complete, ws_frag_track, hut, h2, hlen, (show ¬ payload.length = 1 by omega)]

/-- Witness for C5 at the close frame `0x88 0x02 0x03 0xE8` (code 1000). -/
theorem C5_close_rules_witness :
    ws_parser_feed (ws_parser_init 0) [0x88, 0x02, 0x03, 0xE8] =
      .frame 4 ⟨8, [0x03, 0xE8], true⟩ ⟨2 ^ 20, [], 2, 0, false, 0⟩ :=
  ((C5_close_rules [0x03, 0xE8] (by decide) (by decide)).2.2 (by decide)).1
    (by decide) (by decide)

/-- Counterexample to C5 as stated: the claim says close codes in
[3000, 4999] are accepted, but the code rejects them — feeding the CLOSE
frame with code 3000 yields `ERROR_PROTOCOL`, not a frame. -/
theorem C5_close_code_3000_rejected :
    ws_parser_feed (ws_parser_init 0) [0x88, 0x02, 0x0B, 0xB8] =
      .err .protocol 4 ⟨2 ^ 20, [0x88, 0x02], 2, 2, false, 0⟩ := by
  decide

/-- Header decision for a small (≤ 125 byte) unmasked frame whose first
byte passes the RSV/opcode/control gates. -/
theorem ws_parse_header_small (p : Parser) (b0 L : Nat)
    (hB : p.hdrBytes = [b0, L]) (hN : p.hdrNeed = 2) (hL : L ≤ 125)
    (hrsv : (b0 >>> 4) &&& 0x07 = 0)
    (hop1 : ¬ (3 ≤ b0 &&& 0x0F ∧ b0 &&& 0x0F ≤ 7)) (hop2 : ¬ 0xB ≤ b0 &&& 0x0F)
    (hctrl : (b0 &&& 0x0F) &&& 0x8 ≠ 0 → b0 &&& 0x80 ≠ 0)
    (hmax : ¬ p.maxFrameSize < L) :
    ws_parse_header p = .done ⟨decide (b0 &&& 0x80 ≠ 0), 0, b0 &&& 0x0F, false, L, []⟩ := by
  have hand : L &&& 127 = L := and127_of_lt (by omega)
  have hand2 : L &&& 128 = 0 := and128_of_lt (by omega)
  rw [ws_parse_header_of_complete _ (by simp [hB, hN])
    (by simp [hdrTotalLen, hdrAfterLen, nth, hB, hand, hand2, hL])]
  simp only [nth, hdrPayloadLen, hdrAfterLen, hB, hand, hand2, hL, hrsv, hop1, hop2, hmax,
    if_true, if_false, ite_true, ite_false, if_neg, if_pos, ne_eq, not_false_iff,
    decide_eq_true_eq]
  rw [if_neg (show ¬ (L = 127 ∧ ¬ (0 : Nat) &&& 128 = 0) by simp)]
  rw [if_neg (show ¬ (¬ b0 &&& 15 &&& 8 = 0 ∧ b0 &&& 128 = 0) from
    fun hx => (hctrl hx.1) hx.2)]
  rw [if_neg (show ¬ (¬ b0 &&& 15 &&& 8 = 0 ∧ 125 < L) by omega)]
  simp

/-- Feeding one whole small unmasked frame from a fresh-header parser state
runs the header and payload phases and lands in frame completion. -/
theorem ws_parser_feed_small (p : Parser) (b0 : Nat) (payload : List Nat)
    (hB : p.hdrBytes = []) (hN : p.hdrNeed = 2) (hR : p.payloadRead = 0)
    (hL : payload.length ≤ 125)
    (hrsv : (b0 >>> 4) &&& 0x07 = 0)
    (hop1 : ¬ (3 ≤ b0 &&& 0x0F ∧ b0 &&& 0x0F ≤ 7)) (hop2 : ¬ 0xB ≤ b0 &&& 0x0F)
    (hctrl : (b0 &&& 0x0F) &&& 0x8 ≠ 0 → b0 &&& 0x80 ≠ 0)
    (hmax : ¬ p.maxFrameSize < payload.length) :
    ws_parser_feed p (b0 :: payload.length :: payload) =
      ws_parser_complete { p with hdrBytes := [b0, payload.length], payloadRead := payload.length }
        ⟨decide (b0 &&& 0x80 ≠ 0), 0, b0 &&& 0x0F, false, payload.length, []⟩
        payload (2 + payload.length) := by
  rw [ws_parser_feed, ws_feed_header_fresh p hB hN,
    ws_feed_header_full (by simp [hN]),
    ws_parse_header_small { p with hdrBytes := [b0, payload.length] } b0 payload.length rfl hN
      hL hrsv hop1 hop2 hctrl hmax]
  simp [List.take_length, hR]

/-- **C4 (amended).** The parser validates TEXT payloads (and CONTINUATION
payloads of a fragmented TEXT message) only over the bytes delivered in the
feed call that completes the frame: for every such frame completed in a
single feed call whose nonempty payload is not valid UTF-8, feed returns
`ERROR_PROTOCOL` instead of reporting the frame.  (Payload bytes delivered in
earlier `NEED_MORE` calls are never validated — see the counterexample.) -/
theorem C4_text_utf8_single_call (payload : List Nat) (hL : payload.length ≤ 125)
    (hb : ∀ b ∈ payload, b < 256) (hne : payload ≠ [])
    (hinv : ws_utf8_is_valid payload = false) :
    ws_parser_feed (ws_parser_init 0) (0x81 :: payload.length :: payload) =
      .err .protocol (2 + payload.length)
        ⟨2 ^ 20, [0x81, payload.length], 2, payload.length, false, 0⟩ ∧
    ws_parser_feed (ws_parser_init 0) [0x01, 0x00] =
      .frame 2 ⟨1, [], false⟩ ⟨2 ^ 20, [], 2, 0, true, 1⟩ ∧
    ws_parser_feed ⟨2 ^ 20, [], 2, 0, true, 1⟩ (0x80 :: payload.length :: payload) =
      .err .protocol (2 + payload.length)
        ⟨2 ^ 20, [0x80, payload.length], 2, payload.length, false, 1⟩ := by
  have hpos : 0 < payload.length := List.length_pos.mpr hne
  refine ⟨?_, by decide, ?_⟩
  · rw [show (ws_parser_init 0) = ⟨2 ^ 20, [], 2, 0, false, 0⟩ from rfl,
      ws_parser_feed_small _ 0x81 payload rfl rfl rfl hL (by decide) (by decide) (by decide)
        (by decide) (by simp; omega)]
    simp [ws_parser_complete, ws_frag_track, hinv, hpos,
      (show (129 &&& 15 : Nat) = 1 from rfl), (show (129 &&& 128 : Nat) = 128 from rfl),
      (show (1 &&& 8 : Nat) = 0 from rfl)]
  · rw [ws_parser_feed_small _ 0x80 payload rfl rfl rfl hL (by decide) (by decide) (by decide)
      (by decide) (by simp; omega)]
    simp [ws_parser_complete, ws_frag_track, hinv, hpos,
      (show (128 &&& 15 : Nat) = 0 from rfl), (show (128 &&& 128 : Nat) = 128 from rfl),
      (show (0 &&& 8 : Nat) = 0 from rfl)]

/-- Witness for C4 (amended) at the one-byte invalid payload `0xFF`. -/
theorem C4_text_utf8_single_call_witness :
    ws_parser_feed (ws_parser_init 0) [0x81, 0x01, 0xFF] =
      .err .protocol 3 ⟨2 ^ 20, [0x81, 0x01], 2, 1, false, 0⟩ :=
  (C4_text_utf8_single_call [0xFF] (by decide) (by decide) (by decide) (by decide)).1

/-- Counterexample to C4 as stated: a completed TEXT frame whose payload
(`0xFF 0x41`, not valid UTF-8) was spread over two feed calls is reported as
a frame — only the completing call's view (`0x41`, valid) is validated. -/
theorem C4_split_text_not_validated :
    ws_parser_feed (ws_parser_init 0) [0x81, 0x02, 0xFF] =
      .needMore 3 [0xFF] ⟨2 ^ 20, [0x81, 0x02], 2, 1, false, 0⟩ ∧
    ws_parser_feed ⟨2 ^ 20, [0x81, 0x02], 2, 1, false, 0⟩ [0x41] =
      .frame 1 ⟨1, [0x41], true⟩ ⟨2 ^ 20, [], 2, 0, false, 0⟩ ∧
    ws_utf8_is_valid [0xFF, 0x41] = false := by
  decide

/-- Embeds `ws_build_frame` (lines 172-209 of `src/parser.c`).  The result is
`none` when `out_cap` is too small (the C returns 0), otherwise the encoded
frame bytes: base header, extended length, optional mask key, and the payload
XOR-masked with `mask[i & 3]` when a mask key is given. -/
def ws_build_frame (outCap : Nat) (fin : Bool) (opcode : Nat)
    (maskKey : Option (List Nat)) (payload : List Nat) : Option (List Nat) :=
  let extLen := if payload.length ≤ 125 then 0
    else if payload.length ≤ 0xFFFF then 2 else 8
  let need := 2 + extLen + (if maskKey.isSome then 4 else 0) + payload.length
  if outCap < need then none
  else
    let b0 := (if fin then 0x80 else 0) ||| (opcode &&& 0x0F)
    let b1base := if payload.length ≤ 125 then payload.length
      else if payload.length ≤ 0xFFFF then 126 else 127
    let b1 := (if maskKey.isSome then 0x80 else 0) ||| b1base
    let ext : List Nat :=
      if payload.length ≤ 125 then []
      else if payload.length ≤ 0xFFFF then
        [(payload.length >>> 8) &&& 0xFF, payload.length &&& 0xFF]
      else (List.range 8).map (fun i => (payload.length >>> (56 - 8 * i)) &&& 0xFF)
    let maskBytes := match maskKey with
      | some m => m
      | none => []
    let body := match maskKey with
      | some m => payload.mapIdx (fun i b => b ^^^ nth m (i &&& 3))
      | none => payload
    some (b0 :: b1 :: (ext ++ maskBytes ++ body))

theorem and255_of_lt {b : Nat} (h : b < 256) : b &&& 255 = b := by
  have h3 : b &&& (2 ^ 8 - 1) = b % 2 ^ 8 := Nat.and_pow_two_sub_one_eq_mod b 8
  calc b &&& 255 = b &&& (2 ^ 8 - 1) := by norm_num
    _ = b % 2 ^ 8 := h3
    _ = b := Nat.mod_eq_of_lt (by omega)

theorem shl8_or (x y : Nat) (h : y < 256) : (x <<< 8) ||| y = 256 * x + y := by
  calc (x <<< 8) ||| y = 2 ^ 8 * x ||| y := by rw [Nat.shiftLeft_eq, Nat.mul_comm]
    _ = 2 ^ 8 * x + y := (Nat.mul_add_lt_is_or (by omega) x).symm
    _ = 256 * x + y := by norm_num

/-- Reassembling one big-endian byte: shifting the higher bits left and OR-ing
the next byte recovers the next-lower shift of the original value. -/
theorem byte_recombine (len s : Nat) :
    ((len >>> (s + 8)) <<< 8) ||| ((len >>> s) &&& 255) = len >>> s := by
  have hb : (len >>> s) &&& 255 < 256 :=
    Nat.lt_of_le_of_lt (Nat.and_le_right) (by omega)
  rw [shl8_or _ _ hb]
  have h1 : len >>> (s + 8) = (len >>> s) >>> 8 := by
    rw [Nat.shiftRight_add]
  have h2 : (len >>> s) >>> 8 = (len >>> s) / 256 := by
    rw [Nat.shiftRight_eq_div_pow]
  have h3 : (len >>> s) &&& 255 = (len >>> s) % 256 :=
    Nat.and_pow_two_sub_one_eq_mod (len >>> s) 8
  rw [h1, h2, h3]
  omega

/-- The 16-bit extended length round-trips through its two big-endian bytes. -/
theorem ext16_reconstruct (L : Nat) (h : L ≤ 0xFFFF) :
    (((L >>> 8) &&& 0xFF) <<< 8) ||| (L &&& 0xFF) = L := by
  have := byte_recombine L 0
  simp only [Nat.zero_add, Nat.shiftRight_zero] at this
  have h8 : (L >>> 8) &&& 0xFF = L >>> 8 := by
    apply and255_of_lt
    rw [Nat.shiftRight_eq_div_pow]
    omega
  rw [h8]
  exact this

/-- The 64-bit extended length round-trips through its eight big-endian
bytes (the fold in `ws_parse_header`). -/
theorem ext64_reconstruct (L : Nat) (h : L < 2 ^ 64) :
    (List.range 8).foldl (fun v i => (v <<< 8) ||| ((L >>> (56 - 8 * i)) &&& 0xFF)) 0 = L := by
  have step : ∀ a b : Nat, a + 8 = b →
      ((L >>> b) <<< 8) ||| ((L >>> a) &&& 255) = L >>> a := by
    intro a b hab
    subst hab
    exact byte_recombine L a
  have h56 : (L >>> 56) &&& 255 = L >>> 56 := by
    apply and255_of_lt
    rw [Nat.shiftRight_eq_div_pow]
    omega
  show ((((((((0 <<< 8 ||| (L >>> 56) &&& 255) <<< 8 ||| (L >>> 48) &&& 255) <<< 8
      ||| (L >>> 40) &&& 255) <<< 8 ||| (L >>> 32) &&& 255) <<< 8 ||| (L >>> 24) &&& 255) <<< 8
      ||| (L >>> 16) &&& 255) <<< 8 ||| (L >>> 8) &&& 255) <<< 8 ||| (L >>> 0) &&& 255) = L
  rw [show (0 <<< 8 : Nat) ||| ((L >>> 56) &&& 255) = L >>> 56 from by simp [h56]]
  rw [step 48 56 rfl, step 40 48 rfl, step 32 40 rfl, step 24 32 rfl, step 16 24 rfl,
    step 8 16 rfl, step 0 8 rfl]
  exact Nat.shiftRight_zero

theorem ws_feed_header_more_cons {p : Parser} (hge : ¬ p.hdrBytes.length < p.hdrNeed)
    {n : Nat} (hm : ws_parse_header p = .more n) (b : Nat) (rest : List Nat) (c : Nat) :
    ws_feed_header p (b :: rest) c =
      ws_feed_header { p with hdrBytes := p.hdrBytes ++ [b], hdrNeed := n } rest (c + 1) := by
  rw [ws_feed_header_full hge, hm]

theorem ws_feed_header_of_done {p : Parser} (hge : ¬ p.hdrBytes.length < p.hdrNeed)
    {hdr : FrameHeader} (hm : ws_parse_header p = .done hdr) (data : List Nat) (c : Nat) :
    ws_feed_header p data c = .done hdr c p data := by
  rw [ws_feed_header_full hge, hm]

theorem ws_feed_header_of_err {p : Parser} (hge : ¬ p.hdrBytes.length < p.hdrNeed)
    {e : PError} (hm : ws_parse_header p = .err e) (data : List Nat) (c : Nat) :
    ws_feed_header p data c = .err e c p := by
  rw [ws_feed_header_full hge, hm]

/-- With only the two base bytes and a 126 length indicator, `ws_parse_header`
asks for the two extended-length bytes. -/
theorem ws_parse_header_stage126 (p : Parser) (b0 : Nat)
    (hB : p.hdrBytes = [b0, 126]) (hN : p.hdrNeed = 2)
    (hrsv : (b0 >>> 4) &&& 0x07 = 0)
    (hop1 : ¬ (3 ≤ b0 &&& 0x0F ∧ b0 &&& 0x0F ≤ 7)) (hop2 : ¬ 0xB ≤ b0 &&& 0x0F) :
    ws_parse_header p = .more 4 := by
  simp [ws_parse_header, hB, hN, nth, hrsv, hop1, hop2,
    (show (126 &&& 127 : Nat) = 126 from rfl)]

/-- With only the two base bytes and a 127 length indicator, `ws_parse_header`
asks for the eight extended-length bytes. -/
theorem ws_parse_header_stage127 (p : Parser) (b0 : Nat)
    (hB : p.hdrBytes = [b0, 127]) (hN : p.hdrNeed = 2)
    (hrsv : (b0 >>> 4) &&& 0x07 = 0)
    (hop1 : ¬ (3 ≤ b0 &&& 0x0F ∧ b0 &&& 0x0F ≤ 7)) (hop2 : ¬ 0xB ≤ b0 &&& 0x0F) :
    ws_parse_header p = .more 10 := by
  simp [ws_parse_header, hB, hN, nth, hrsv, hop1, hop2,
    (show (127 &&& 127 : Nat) = 127 from rfl)]

/-- Header decision for a complete unmasked 16-bit-extended-length header on a
non-control opcode passing the gates. -/
theorem ws_parse_header_ext16 (p : Parser) (b0 e1 e2 : Nat)
    (hB : p.hdrBytes = [b0, 126, e1, e2]) (hN : p.hdrNeed = 4)
    (hrsv : (b0 >>> 4) &&& 0x07 = 0)
    (hop1 : ¬ (3 ≤ b0 &&& 0x0F ∧ b0 &&& 0x0F ≤ 7)) (hop2 : ¬ 0xB ≤ b0 &&& 0x0F)
    (hnc : (b0 &&& 0x0F) &&& 0x8 = 0)
    (hmax : ¬ p.maxFrameSize < (e1 <<< 8) ||| e2) :
    ws_parse_header p =
      .done ⟨decide (b0 &&& 0x80 ≠ 0), 0, b0 &&& 0x0F, false, (e1 <<< 8) ||| e2, []⟩ := by
  have hplen : hdrPayloadLen [b0, 126, e1, e2] = (e1 <<< 8) ||| e2 := by
    simp [hdrPayloadLen, nth, (show (126 &&& 127 : Nat) = 126 from rfl)]
  rw [ws_parse_header_of_complete _ (by simp [hB, hN])
    (by simp [hdrTotalLen, hdrAfterLen, nth, hB,
      (show (126 &&& 127 : Nat) = 126 from rfl), (show (126 &&& 128 : Nat) = 0 from rfl)])]
  simp [nth, hB, hplen, hdrAfterLen, hrsv, hop1, hop2, hnc, hmax,
    (show (126 &&& 127 : Nat) = 126 from rfl), (show (126 &&& 128 : Nat) = 0 from rfl)]

/-- Header decision for a complete unmasked 64-bit-extended-length header
carrying the eight big-endian bytes of `L < 2 ^ 63`, on a non-control opcode
passing the gates. -/
theorem ws_parse_header_ext64 (p : Parser) (b0 L : Nat)
    (hB : p.hdrBytes = [b0, 127, (L >>> 56) &&& 0xFF, (L >>> 48) &&& 0xFF,
      (L >>> 40) &&& 0xFF, (L >>> 32) &&& 0xFF, (L >>> 24) &&& 0xFF, (L >>> 16) &&& 0xFF,
      (L >>> 8) &&& 0xFF, L &&& 0xFF])
    (hN : p.hdrNeed = 10) (h63 : L < 2 ^ 63)
    (hrsv : (b0 >>> 4) &&& 0x07 = 0)
    (hop1 : ¬ (3 ≤ b0 &&& 0x0F ∧ b0 &&& 0x0F ≤ 7)) (hop2 : ¬ 0xB ≤ b0 &&& 0x0F)
    (hnc : (b0 &&& 0x0F) &&& 0x8 = 0)
    (hmax : ¬ p.maxFrameSize < L) :
    ws_parse_header p =
      .done ⟨decide (b0 &&& 0x80 ≠ 0), 0, b0 &&& 0x0F, false, L, []⟩ := by
  have hplen : hdrPayloadLen [b0, 127, (L >>> 56) &&& 0xFF, (L >>> 48) &&& 0xFF,
      (L >>> 40) &&& 0xFF, (L >>> 32) &&& 0xFF, (L >>> 24) &&& 0xFF, (L >>> 16) &&& 0xFF,
      (L >>> 8) &&& 0xFF, L &&& 0xFF] = L := by
    rw [hdrPayloadLen]
    rw [if_neg (by simp [nth]), if_neg (by simp [nth])]
    exact ext64_reconstruct L (by omega)
  have hmsb : ((L >>> 56) &&& 0xFF) &&& 0x80 = 0 := by
    have hlt : (L >>> 56) < 128 := by
      rw [Nat.shiftRight_eq_div_pow]
      omega
    rw [and255_of_lt (show L >>> 56 < 256 by omega)]
    exact and128_of_lt hlt
  rw [ws_parse_header_of_complete _ (by simp [hB, hN])
    (by simp [hdrTotalLen, hdrAfterLen, nth, hB,
      (show (127 &&& 127 : Nat) = 127 from rfl), (show (127 &&& 128 : Nat) = 0 from rfl)])]
  simp [nth, hB, hplen, hdrAfterLen, hrsv, hop1, hop2, hnc, hmax, hmsb,
    (show (127 &&& 127 : Nat) = 127 from rfl), (show (127 &&& 128 : Nat) = 0 from rfl)]

/-- Feeding one whole unmasked frame with a 16-bit extended length from a
fresh-header parser state lands in frame completion with the byte-exact
payload view. -/
theorem ws_parser_feed_ext16 (p : Parser) (b0 : Nat) (payload : List Nat)
    (hB : p.hdrBytes = []) (hN : p.hdrNeed = 2) (hR : p.payloadRead = 0)
    (hFFFF : payload.length ≤ 0xFFFF)
    (hrsv : (b0 >>> 4) &&& 0x07 = 0)
    (hop1 : ¬ (3 ≤ b0 &&& 0x0F ∧ b0 &&& 0x0F ≤ 7)) (hop2 : ¬ 0xB ≤ b0 &&& 0x0F)
    (hnc : (b0 &&& 0x0F) &&& 0x8 = 0)
    (hmax : ¬ p.maxFrameSize < payload.length) :
    ws_parser_feed p (b0 :: 126 :: ((payload.length >>> 8) &&& 0xFF) ::
        (payload.length &&& 0xFF) :: payload) =
      ws_parser_complete { p with hdrBytes := [b0, 126, (payload.length >>> 8) &&& 0xFF, payload.length &&& 0xFF], hdrNeed := 4, payloadRead := payload.length }
        ⟨decide (b0 &&& 0x80 ≠ 0), 0, b0 &&& 0x0F, false, payload.length, []⟩
        payload (4 + payload.length) := by
  have hrec := ext16_reconstruct payload.length hFFFF
  have step1 : ws_feed_header { p with hdrBytes := [b0, 126] }
      (((payload.length >>> 8) &&& 0xFF) :: (payload.length &&& 0xFF) :: payload) 2 =
      ws_feed_header { p with hdrBytes := [b0, 126, (payload.length >>> 8) &&& 0xFF], hdrNeed := 4 } ((payload.length &&& 0xFF) :: payload) 3 :=
    ws_feed_header_more_cons (p := { p with hdrBytes := [b0, 126] }) (by simp [hN])
      (ws_parse_header_stage126 _ b0 (by simp) hN hrsv hop1 hop2) _ _ 2
  have step2 : ws_feed_header { p with hdrBytes := [b0, 126, (payload.length >>> 8) &&& 0xFF], hdrNeed := 4 } ((payload.length &&& 0xFF) :: payload) 3 =
      ws_feed_header { p with hdrBytes := [b0, 126, (payload.length >>> 8) &&& 0xFF, payload.length &&& 0xFF], hdrNeed := 4 } payload 4 :=
    ws_feed_header_cons
      (p := { p with hdrBytes := [b0, 126, (payload.length >>> 8) &&& 0xFF], hdrNeed := 4 })
      (by simp) _ _ 3
  have step3 : ws_feed_header { p with hdrBytes := [b0, 126, (payload.length >>> 8) &&& 0xFF, payload.length &&& 0xFF], hdrNeed := 4 } payload 4 =
      .done ⟨decide (b0 &&& 0x80 ≠ 0), 0, b0 &&& 0x0F, false, payload.length, []⟩ 4
        { p with hdrBytes := [b0, 126, (payload.length >>> 8) &&& 0xFF, payload.length &&& 0xFF], hdrNeed := 4 } payload := by
    have h := ws_feed_header_of_done
      (p := { p with hdrBytes := [b0, 126, (payload.length >>> 8) &&& 0xFF, payload.length &&& 0xFF], hdrNeed := 4 })
      (by simp)
      (ws_parse_header_ext16 _ b0 ((payload.length >>> 8) &&& 0xFF) (payload.length &&& 0xFF)
        (by simp) rfl hrsv hop1 hop2 hnc (by rw [hrec]; exact hmax)) payload 4
    rw [h, hrec]
  rw [ws_parser_feed, ws_feed_header_fresh p hB hN, step1, step2, step3]
  simp [List.take_length, hR]

/-- Feeding one whole unmasked frame with a 64-bit extended length from a
fresh-header parser state lands in frame completion with the byte-exact
payload view. -/
theorem ws_parser_feed_ext64 (p : Parser) (b0 : Nat) (payload : List Nat)
    (hB : p.hdrBytes = []) (hN : p.hdrNeed = 2) (hR : p.payloadRead = 0)
    (h63 : payload.length < 2 ^ 63)
    (hrsv : (b0 >>> 4) &&& 0x07 = 0)
    (hop1 : ¬ (3 ≤ b0 &&& 0x0F ∧ b0 &&& 0x0F ≤ 7)) (hop2 : ¬ 0xB ≤ b0 &&& 0x0F)
    (hnc : (b0 &&& 0x0F) &&& 0x8 = 0)
    (hmax : ¬ p.maxFrameSize < payload.length) :
    ws_parser_feed p (b0 :: 127 :: ((payload.length >>> 56) &&& 0xFF) :: ((payload.length >>> 48) &&& 0xFF) :: ((payload.length >>> 40) &&& 0xFF) :: ((payload.length >>> 32) &&& 0xFF) :: ((payload.length >>> 24) &&& 0xFF) :: ((payload.length >>> 16) &&& 0xFF) :: ((payload.length >>> 8) &&& 0xFF) :: (payload.length &&& 0xFF) :: payload) =
      ws_parser_complete { p with hdrBytes := [b0, 127, ((payload.length >>> 56) &&& 0xFF), ((payload.length >>> 48) &&& 0xFF), ((payload.length >>> 40) &&& 0xFF), ((payload.length >>> 32) &&& 0xFF), ((payload.length >>> 24) &&& 0xFF), ((payload.length >>> 16) &&& 0xFF), ((payload.length >>> 8) &&& 0xFF), (payload.length &&& 0xFF)], hdrNeed := 10, payloadRead := payload.length }
        ⟨decide (b0 &&& 0x80 ≠ 0), 0, b0 &&& 0x0F, false, payload.length, []⟩
        payload (10 + payload.length) := by
  have step1 : ws_feed_header { p with hdrBytes := [b0, 127] }
      (((payload.length >>> 56) &&& 0xFF) :: ((payload.length >>> 48) &&& 0xFF) :: ((payload.length >>> 40) &&& 0xFF) :: ((payload.length >>> 32) &&& 0xFF) :: ((payload.length >>> 24) &&& 0xFF) :: ((payload.length >>> 16) &&& 0xFF) :: ((payload.length >>> 8) &&& 0xFF) :: (payload.length &&& 0xFF) :: payload) 2 =
      ws_feed_header { p with hdrBytes := [b0, 127, ((payload.length >>> 56) &&& 0xFF)], hdrNeed := 10 } (((payload.length >>> 48) &&& 0xFF) :: ((payload.length >>> 40) &&& 0xFF) :: ((payload.length >>> 32) &&& 0xFF) :: ((payload.length >>> 24) &&& 0xFF) :: ((payload.length >>> 16) &&& 0xFF) :: ((payload.length >>> 8) &&& 0xFF) :: (payload.length &&& 0xFF) :: payload) 3 :=
    ws_feed_header_more_cons (p := { p with hdrBytes := [b0, 127] }) (by simp [hN])
      (ws_parse_header_stage127 _ b0 (by simp) hN hrsv hop1 hop2) _ _ 2
  have step2 : ws_feed_header { p with hdrBytes := [b0, 127, ((payload.length >>> 56) &&& 0xFF)], hdrNeed := 10 } (((payload.length >>> 48) &&& 0xFF) :: ((payload.length >>> 40) &&& 0xFF) :: ((payload.length >>> 32) &&& 0xFF) :: ((payload.length >>> 24) &&& 0xFF) :: ((payload.length >>> 16) &&& 0xFF) :: ((payload.length >>> 8) &&& 0xFF) :: (payload.length &&& 0xFF) :: payload) 3 =
      ws_feed_header { p with hdrBytes := [b0, 127, ((payload.length >>> 56) &&& 0xFF), ((payload.length >>> 48) &&& 0xFF)], hdrNeed := 10 } (((payload.length >>> 40) &&& 0xFF) :: ((payload.length >>> 32) &&& 0xFF) :: ((payload.length >>> 24) &&& 0xFF) :: ((payload.length >>> 16) &&& 0xFF) :: ((payload.length >>> 8) &&& 0xFF) :: (payload.length &&& 0xFF) :: payload) 4 :=
    ws_feed_header_cons (p := { p with hdrBytes := [b0, 127, ((payload.length >>> 56) &&& 0xFF)], hdrNeed := 10 }) (by simp) _ _ 3
  have step3 : ws_feed_header { p with hdrBytes := [b0, 127, ((payload.length >>> 56) &&& 0xFF), ((payload.length >>> 48) &&& 0xFF)], hdrNeed := 10 } (((payload.length >>> 40) &&& 0xFF) :: ((payload.length >>> 32) &&& 0xFF) :: ((payload.length >>> 24) &&& 0xFF) :: ((payload.length >>> 16) &&& 0xFF) :: ((payload.length >>> 8) &&& 0xFF) :: (payload.length &&& 0xFF) :: payload) 4 =
      ws_feed_header { p with hdrBytes := [b0, 127, ((payload.length >>> 56) &&& 0xFF), ((payload.length >>> 48) &&& 0xFF), ((payload.length >>> 40) &&& 0xFF)], hdrNeed := 10 } (((payload.length >>> 32) &&& 0xFF) :: ((payload.length >>> 24) &&& 0xFF) :: ((payload.length >>> 16) &&& 0xFF) :: ((payload.length >>> 8) &&& 0xFF) :: (payload.length &&& 0xFF) :: payload) 5 :=
    ws_feed_header_cons (p := { p with hdrBytes := [b0, 127, ((payload.length >>> 56) &&& 0xFF), ((payload.length >>> 48) &&& 0xFF)], hdrNeed := 10 }) (by simp) _ _ 4
  have step4 : ws_feed_header { p with hdrBytes := [b0, 127, ((payload.length >>> 56) &&& 0xFF), ((payload.length >>> 48) &&& 0xFF), ((payload.length >>> 40) &&& 0xFF)], hdrNeed := 10 } (((payload.length >>> 32) &&& 0xFF) :: ((payload.length >>> 24) &&& 0xFF) :: ((payload.length >>> 16) &&& 0xFF) :: ((payload.length >>> 8) &&& 0xFF) :: (payload.length &&& 0xFF) :: payload) 5 =
      ws_feed_header { p with hdrBytes := [b0, 127, ((payload.length >>> 56) &&& 0xFF), ((payload.length >>> 48) &&& 0xFF), ((payload.length >>> 40) &&& 0xFF), ((payload.length >>> 32) &&& 0xFF)], hdrNeed := 10 } (((payload.length >>> 24) &&& 0xFF) :: ((payload.length >>> 16) &&& 0xFF) :: ((payload.length >>> 8) &&& 0xFF) :: (payload.length &&& 0xFF) :: payload) 6 :=
    ws_feed_header_cons (p := { p with hdrBytes := [b0, 127, ((payload.length >>> 56) &&& 0xFF), ((payload.length >>> 48) &&& 0xFF), ((payload.length >>> 40) &&& 0xFF)], hdrNeed := 10 }) (by simp) _ _ 5
  have step5 : ws_feed_header { p with hdrBytes := [b0, 127, ((payload.length >>> 56) &&& 0xFF), ((payload.length >>> 48) &&& 0xFF), ((payload.length >>> 40) &&& 0xFF), ((payload.length >>> 32) &&& 0xFF)], hdrNeed := 10 } (((payload.length >>> 24) &&& 0xFF) :: ((payload.length >>> 16) &&& 0xFF) :: ((payload.length >>> 8) &&& 0xFF) :: (payload.length &&& 0xFF) :: payload) 6 =
      ws_feed_header { p with hdrBytes := [b0, 127, ((payload.length >>> 56) &&& 0xFF), ((payload.length >>> 48) &&& 0xFF), ((payload.length >>> 40) &&& 0xFF), ((payload.length >>> 32) &&& 0xFF), ((payload.length >>> 24) &&& 0xFF)], hdrNeed := 10 } (((payload.length >>> 16) &&& 0xFF) :: ((payload.length >>> 8) &&& 0xFF) :: (payload.length &&& 0xFF) :: payload) 7 :=
    ws_feed_header_cons (p := { p with hdrBytes := [b0, 127, ((payload.length >>> 56) &&& 0xFF), ((payload.length >>> 48) &&& 0xFF), ((payload.length >>> 40) &&& 0xFF), ((payload.length >>> 32) &&& 0xFF)], hdrNeed := 10 }) (by simp) _ _ 6
  have step6 : ws_feed_header { p with hdrBytes := [b0, 127, ((payload.length >>> 56) &&& 0xFF), ((payload.length >>> 48) &&& 0xFF), ((payload.length >>> 40) &&& 0xFF), ((payload.length >>> 32) &&& 0xFF), ((payload.length >>> 24) &&& 0xFF)], hdrNeed := 10 } (((payload.length >>> 16) &&& 0xFF) :: ((payload.length >>> 8) &&& 0xFF) :: (payload.length &&& 0xFF) :: payload) 7 =
      ws_feed_header { p with hdrBytes := [b0, 127, ((payload.length >>> 56) &&& 0xFF), ((payload.length >>> 48) &&& 0xFF), ((payload.length >>> 40) &&& 0xFF), ((payload.length >>> 32) &&& 0xFF), ((payload.length >>> 24) &&& 0xFF), ((payload.length >>> 16) &&& 0xFF)], hdrNeed := 10 } (((payload.length >>> 8) &&& 0xFF) :: (payload.length &&& 0xFF) :: payload) 8 :=
    ws_feed_header_cons (p := { p with hdrBytes := [b0, 127, ((payload.length >>> 56) &&& 0xFF), ((payload.length >>> 48) &&& 0xFF), ((payload.length >>> 40) &&& 0xFF), ((payload.length >>> 32) &&& 0xFF), ((payload.length >>> 24) &&& 0xFF)], hdrNeed := 10 }) (by simp) _ _ 7
  have step7 : ws_feed_header { p with hdrBytes := [b0, 127, ((payload.length >>> 56) &&& 0xFF), ((payload.length >>> 48) &&& 0xFF), ((payload.length >>> 40) &&& 0xFF), ((payload.length >>> 32) &&& 0xFF), ((payload.length >>> 24) &&& 0xFF), ((payload.length >>> 16) &&& 0xFF)], hdrNeed := 10 } (((payload.length >>> 8) &&& 0xFF) :: (payload.length &&& 0xFF) :: payload) 8 =
      ws_feed_header { p with hdrBytes := [b0, 127, ((payload.length >>> 56) &&& 0xFF), ((payload.length >>> 48) &&& 0xFF), ((payload.length >>> 40) &&& 0xFF), ((payload.length >>> 32) &&& 0xFF), ((payload.length >>> 24) &&& 0xFF), ((payload.length >>> 16) &&& 0xFF), ((payload.length >>> 8) &&& 0xFF)], hdrNeed := 10 } ((payload.length &&& 0xFF) :: payload) 9 :=
    ws_feed_header_cons (p := { p with hdrBytes := [b0, 127, ((payload.length >>> 56) &&& 0xFF), ((payload.length >>> 48) &&& 0xFF), ((payload.length >>> 40) &&& 0xFF), ((payload.length >>> 32) &&& 0xFF), ((payload.length >>> 24) &&& 0xFF), ((payload.length >>> 16) &&& 0xFF)], hdrNeed := 10 }) (by simp) _ _ 8
  have step8 : ws_feed_header { p with hdrBytes := [b0, 127, ((payload.length >>> 56) &&& 0xFF), ((payload.length >>> 48) &&& 0xFF), ((payload.length >>> 40) &&& 0xFF), ((payload.length >>> 32) &&& 0xFF), ((payload.length >>> 24) &&& 0xFF), ((payload.length >>> 16) &&& 0xFF), ((payload.length >>> 8) &&& 0xFF)], hdrNeed := 10 } ((payload.length &&& 0xFF) :: payload) 9 =
      ws_feed_header { p with hdrBytes := [b0, 127, ((payload.length >>> 56) &&& 0xFF), ((payload.length >>> 48) &&& 0xFF), ((payload.length >>> 40) &&& 0xFF), ((payload.length >>> 32) &&& 0xFF), ((payload.length >>> 24) &&& 0xFF), ((payload.length >>> 16) &&& 0xFF), ((payload.length >>> 8) &&& 0xFF), (payload.length &&& 0xFF)], hdrNeed := 10 } (payload) 10 :=
    ws_feed_header_cons (p := { p with hdrBytes := [b0, 127, ((payload.length >>> 56) &&& 0xFF), ((payload.length >>> 48) &&& 0xFF), ((payload.length >>> 40) &&& 0xFF), ((payload.length >>> 32) &&& 0xFF), ((payload.length >>> 24) &&& 0xFF), ((payload.length >>> 16) &&& 0xFF), ((payload.length >>> 8) &&& 0xFF)], hdrNeed := 10 }) (by simp) _ _ 9
  have step9 : ws_feed_header { p with hdrBytes := [b0, 127, ((payload.length >>> 56) &&& 0xFF), ((payload.length >>> 48) &&& 0xFF), ((payload.length >>> 40) &&& 0xFF), ((payload.length >>> 32) &&& 0xFF), ((payload.length >>> 24) &&& 0xFF), ((payload.length >>> 16) &&& 0xFF), ((payload.length >>> 8) &&& 0xFF), (payload.length &&& 0xFF)], hdrNeed := 10 } payload 10 =
      .done ⟨decide (b0 &&& 0x80 ≠ 0), 0, b0 &&& 0x0F, false, payload.length, []⟩ 10
        { p with hdrBytes := [b0, 127, ((payload.length >>> 56) &&& 0xFF), ((payload.length >>> 48) &&& 0xFF), ((payload.length >>> 40) &&& 0xFF), ((payload.length >>> 32) &&& 0xFF), ((payload.length >>> 24) &&& 0xFF), ((payload.length >>> 16) &&& 0xFF), ((payload.length >>> 8) &&& 0xFF), (payload.length &&& 0xFF)], hdrNeed := 10 } payload :=
    ws_feed_header_of_done (p := { p with hdrBytes := [b0, 127, ((payload.length >>> 56) &&& 0xFF), ((payload.length >>> 48) &&& 0xFF), ((payload.length >>> 40) &&& 0xFF), ((payload.length >>> 32) &&& 0xFF), ((payload.length >>> 24) &&& 0xFF), ((payload.length >>> 16) &&& 0xFF), ((payload.length >>> 8) &&& 0xFF), (payload.length &&& 0xFF)], hdrNeed := 10 }) (by simp)
      (ws_parse_header_ext64 _ b0 payload.length (by simp) rfl h63 hrsv hop1 hop2 hnc hmax)
      payload 10
  rw [ws_parser_feed, ws_feed_header_fresh p hB hN, step1, step2, step3, step4, step5,
    step6, step7, step8, step9]
  simp [List.take_length, hR]

/-- **C3 (amended).** For every FIN flag, every opcode the parser admits on a
fresh connection (TEXT with UTF-8-valid payload, BINARY, or a control frame
with FIN=1, payload ≤ 125 and — for CLOSE — a well-formed close payload),
and every payload below the parser's `max_frame_size`, building the frame
*unmasked* and feeding the bytes to a freshly initialized parser recovers the
same opcode, the same FIN flag, and the byte-exact payload.  (A *masked*
build does not round-trip: `ws_parser_feed` never unmasks — see the
counterexample.) -/
theorem C3_roundtrip_unmasked (maxF : Nat) (fin : Bool) (op : Nat) (payload : List Nat)
    (hop : op = 0x1 ∨ op = 0x2 ∨ op = 0x8 ∨ op = 0x9 ∨ op = 0xA)
    (htext : op = 0x1 → ws_utf8_is_valid payload = true)
    (hctrl : 0x8 ≤ op → fin = true ∧ payload.length ≤ 125)
    (hclose : op = 0x8 → payload.length ≠ 1 ∧ (2 ≤ payload.length →
        ws_is_valid_close_code ((nth payload 0 <<< 8) ||| nth payload 1) = true ∧
        (payload.length ≤ 2 ∨ ws_utf8_is_valid (payload.drop 2) = true)))
    (hmax : payload.length ≤ (ws_parser_init maxF).maxFrameSize)
    (h63 : payload.length < 2 ^ 63) :
    ∃ (bytes : List Nat) (consumed : Nat) (p' : Parser),
      ws_build_frame (14 + payload.length) fin op none payload = some bytes ∧
      ws_parser_feed (ws_parser_init maxF) bytes =
        .frame consumed ⟨op, payload, fin⟩ p' := by
  set M := (ws_parser_init maxF).maxFrameSize with hM
  have hinit : ws_parser_init maxF = ⟨M, [], 2, 0, false, 0⟩ := rfl
  have hmax' : ¬ M < payload.length := by omega
  rcases hop with h | h | h | h | h <;> subst h
  · -- opcode 1
    cases fin
    · rcases Nat.lt_or_ge payload.length 126 with hreg | hreg2
      · have hL : payload.length ≤ 125 := by omega
        have hbuild : ws_build_frame (14 + payload.length) false 1 none payload =
            some (1 :: payload.length :: payload) := by
          simp [ws_build_frame, hL,
            (show ¬ 14 + payload.length < 2 + 0 + 0 + payload.length by omega),
            (show ((if (false : Bool) = true then 0x80 else 0) ||| (1 &&& 0x0F) : Nat) = 1 from rfl), (show (1 &&& 0x0F : Nat) = 1 from rfl), (show (0 ||| 1 : Nat) = 1 from rfl)]
        refine ⟨_, 2 + payload.length, ⟨M, [], 2, 0, true, 1⟩, hbuild, ?_⟩
        rw [hinit, ws_parser_feed_small ⟨M, [], 2, 0, false, 0⟩ 1 payload rfl rfl rfl hL
          (by decide) (by decide) (by decide) (by decide) hmax']
        simp [ws_parser_complete, ws_frag_track, (show (1 &&& 128 : Nat) = 0 from rfl), (show (1 &&& 15 : Nat) = 1 from rfl), (show (1 &&& 8 : Nat) = 0 from rfl), htext rfl] <;> try decide
      rcases Nat.lt_or_ge payload.length 65536 with hreg3 | hreg4
      · have hFFFF : payload.length ≤ 0xFFFF := by omega
        have hbuild : ws_build_frame (14 + payload.length) false 1 none payload =
            some (1 :: 126 :: ((payload.length >>> 8) &&& 0xFF) :: (payload.length &&& 0xFF) :: payload) := by
          simp [ws_build_frame, (show ¬ payload.length ≤ 125 by omega), hFFFF,
            (show ¬ 14 + payload.length < 2 + 2 + 0 + payload.length by omega),
            (show ((if (false : Bool) = true then 0x80 else 0) ||| (1 &&& 0x0F) : Nat) = 1 from rfl), (show (1 &&& 0x0F : Nat) = 1 from rfl), (show (0 ||| 1 : Nat) = 1 from rfl)]
        refine ⟨_, 4 + payload.length, ⟨M, [], 2, 0, true, 1⟩, hbuild, ?_⟩
        rw [hinit, ws_parser_feed_ext16 ⟨M, [], 2, 0, false, 0⟩ 1 payload rfl rfl rfl hFFFF
          (by decide) (by decide) (by decide) (by decide) hmax']
        simp [ws_parser_complete, ws_frag_track, (show (1 &&& 128 : Nat) = 0 from rfl), (show (1 &&& 15 : Nat) = 1 from rfl), (show (1 &&& 8 : Nat) = 0 from rfl), htext rfl] <;> try decide
      · have hbuild : ws_build_frame (14 + payload.length) false 1 none payload =
            some (1 :: 127 :: ((payload.length >>> 56) &&& 0xFF) :: ((payload.length >>> 48) &&& 0xFF) :: ((payload.length >>> 40) &&& 0xFF) :: ((payload.length >>> 32) &&& 0xFF) :: ((payload.length >>> 24) &&& 0xFF) :: ((payload.length >>> 16) &&& 0xFF) :: ((payload.length >>> 8) &&& 0xFF) :: (payload.length &&& 0xFF) :: payload) := by
          simp [ws_build_frame, (show ¬ payload.length ≤ 125 by omega),
            (show ¬ payload.length ≤ 0xFFFF by omega),
            (show ¬ 14 + payload.length < 2 + 8 + 0 + payload.length by omega),
            (show ((if (false : Bool) = true then 0x80 else 0) ||| (1 &&& 0x0F) : Nat) = 1 from rfl),
            List.range_succ, (show (2 &&& 15 : Nat) = 2 from rfl), (show (1 &&& 15 : Nat) = 1 from rfl), (show (0x80 ||| 2 : Nat) = 130 from rfl), (show (0x80 ||| 1 : Nat) = 129 from rfl)]
        refine ⟨_, 10 + payload.length, ⟨M, [], 2, 0, true, 1⟩, hbuild, ?_⟩
        rw [hinit, ws_parser_feed_ext64 ⟨M, [], 2, 0, false, 0⟩ 1 payload rfl rfl rfl h63
          (by decide) (by decide) (by decide) (by decide) hmax']
        simp [ws_parser_complete, ws_frag_track, (show (1 &&& 128 : Nat) = 0 from rfl), (show (1 &&& 15 : Nat) = 1 from rfl), (show (1 &&& 8 : Nat) = 0 from rfl), htext rfl] <;> try decide
    · rcases Nat.lt_or_ge payload.length 126 with hreg | hreg2
      · have hL : payload.length ≤ 125 := by omega
        have hbuild : ws_build_frame (14 + payload.length) true 1 none payload =
            some (129 :: payload.length :: payload) := by
          simp [ws_build_frame, hL,
            (show ¬ 14 + payload.length < 2 + 0 + 0 + payload.length by omega),
            (show ((if (true : Bool) = true then 0x80 else 0) ||| (1 &&& 0x0F) : Nat) = 129 from rfl), (show (1 &&& 0x0F : Nat) = 1 from rfl), (show (0x80 ||| 1 : Nat) = 129 from rfl)]
        refine ⟨_, 2 + payload.length, ⟨M, [], 2, 0, false, 0⟩, hbuild, ?_⟩
        rw [hinit, ws_parser_feed_small ⟨M, [], 2, 0, false, 0⟩ 129 payload rfl rfl rfl hL
          (by decide) (by decide) (by decide) (by decide) hmax']
        simp [ws_parser_complete, ws_frag_track, (show (129 &&& 128 : Nat) = 128 from rfl), (show (129 &&& 15 : Nat) = 1 from rfl), (show (1 &&& 8 : Nat) = 0 from rfl), htext rfl] <;> try decide
      rcases Nat.lt_or_ge payload.length 65536 with hreg3 | hreg4
      · have hFFFF : payload.length ≤ 0xFFFF := by omega
        have hbuild : ws_build_frame (14 + payload.length) true 1 none payload =
            some (129 :: 126 :: ((payload.length >>> 8) &&& 0xFF) :: (payload.length &&& 0xFF) :: payload) := by
          simp [ws_build_frame, (show ¬ payload.length ≤ 125 by omega), hFFFF,
            (show ¬ 14 + payload.length < 2 + 2 + 0 + payload.length by omega),
            (show ((if (true : Bool) = true then 0x80 else 0) ||| (1 &&& 0x0F) : Nat) = 129 from rfl), (show (1 &&& 0x0F : Nat) = 1 from rfl), (show (0x80 ||| 1 : Nat) = 129 from rfl)]
        refine ⟨_, 4 + payload.length, ⟨M, [], 2, 0, false, 0⟩, hbuild, ?_⟩
        rw [hinit, ws_parser_feed_ext16 ⟨M, [], 2, 0, false, 0⟩ 129 payload rfl rfl rfl hFFFF
          (by decide) (by decide) (by decide) (by decide) hmax']
        simp [ws_parser_complete, ws_frag_track, (show (129 &&& 128 : Nat) = 128 from rfl), (show (129 &&& 15 : Nat) = 1 from rfl), (show (1 &&& 8 : Nat) = 0 from rfl), htext rfl] <;> try decide
      · have hbuild : ws_build_frame (14 + payload.length) true 1 none payload =
            some (129 :: 127 :: ((payload.length >>> 56) &&& 0xFF) :: ((payload.length >>> 48) &&& 0xFF) :: ((payload.length >>> 40) &&& 0xFF) :: ((payload.length >>> 32) &&& 0xFF) :: ((payload.length >>> 24) &&& 0xFF) :: ((payload.length >>> 16) &&& 0xFF) :: ((payload.length >>> 8) &&& 0xFF) :: (payload.length &&& 0xFF) :: payload) := by
          simp [ws_build_frame, (show ¬ payload.length ≤ 125 by omega),
            (show ¬ payload.length ≤ 0xFFFF by omega),
            (show ¬ 14 + payload.length < 2 + 8 + 0 + payload.length by omega),
            (show ((if (true : Bool) = true then 0x80 else 0) ||| (1 &&& 0x0F) : Nat) = 129 from rfl),
            List.range_succ, (show (2 &&& 15 : Nat) = 2 from rfl), (show (1 &&& 15 : Nat) = 1 from rfl), (show (0x80 ||| 2 : Nat) = 130 from rfl), (show (0x80 ||| 1 : Nat) = 129 from rfl)]
        refine ⟨_, 10 + payload.length, ⟨M, [], 2, 0, false, 0⟩, hbuild, ?_⟩
        rw [hinit, ws_parser_feed_ext64 ⟨M, [], 2, 0, false, 0⟩ 129 payload rfl rfl rfl h63
          (by decide) (by decide) (by decide) (by decide) hmax']
        simp [ws_parser_complete, ws_frag_track, (show (129 &&& 128 : Nat) = 128 from rfl), (show (129 &&& 15 : Nat) = 1 from rfl), (show (1 &&& 8 : Nat) = 0 from rfl), htext rfl] <;> try decide
  · -- opcode 2
    cases fin
    · rcases Nat.lt_or_ge payload.length 126 with hreg | hreg2
      · have hL : payload.length ≤ 125 := by omega
        have hbuild : ws_build_frame (14 + payload.length) false 2 none payload =
            some (2 :: payload.length :: payload) := by
          simp [ws_build_frame, hL,
            (show ¬ 14 + payload.length < 2 + 0 + 0 + payload.length by omega),
            (show ((if (false : Bool) = true then 0x80 else 0) ||| (2 &&& 0x0F) : Nat) = 2 from rfl), (show (2 &&& 0x0F : Nat) = 2 from rfl), (show (0 ||| 2 : Nat) = 2 from rfl)]
        refine ⟨_, 2 + payload.length, ⟨M, [], 2, 0, true, 2⟩, hbuild, ?_⟩
        rw [hinit, ws_parser_feed_small ⟨M, [], 2, 0, false, 0⟩ 2 payload rfl rfl rfl hL
          (by decide) (by decide) (by decide) (by decide) hmax']
        simp [ws_parser_complete, ws_frag_track, (show (2 &&& 128 : Nat) = 0 from rfl), (show (2 &&& 15 : Nat) = 2 from rfl), (show (2 &&& 8 : Nat) = 0 from rfl)] <;> try decide
      rcases Nat.lt_or_ge payload.length 65536 with hreg3 | hreg4
      · have hFFFF : payload.length ≤ 0xFFFF := by omega
        have hbuild : ws_build_frame (14 + payload.length) false 2 none payload =
            some (2 :: 126 :: ((payload.length >>> 8) &&& 0xFF) :: (payload.length &&& 0xFF) :: payload) := by
          simp [ws_build_frame, (show ¬ payload.length ≤ 125 by omega), hFFFF,
            (show ¬ 14 + payload.length < 2 + 2 + 0 + payload.length by omega),
            (show ((if (false : Bool) = true then 0x80 else 0) ||| (2 &&& 0x0F) : Nat) = 2 from rfl), (show (2 &&& 0x0F : Nat) = 2 from rfl), (show (0 ||| 2 : Nat) = 2 from rfl)]
        refine ⟨_, 4 + payload.length, ⟨M, [], 2, 0, true, 2⟩, hbuild, ?_⟩
        rw [hinit, ws_parser_feed_ext16 ⟨M, [], 2, 0, false, 0⟩ 2 payload rfl rfl rfl hFFFF
          (by decide) (by decide) (by decide) (by decide) hmax']
        simp [ws_parser_complete, ws_frag_track, (show (2 &&& 128 : Nat) = 0 from rfl), (show (2 &&& 15 : Nat) = 2 from rfl), (show (2 &&& 8 : Nat) = 0 from rfl)] <;> try decide
      · have hbuild : ws_build_frame (14 + payload.length) false 2 none payload =
            some (2 :: 127 :: ((payload.length >>> 56) &&& 0xFF) :: ((payload.length >>> 48) &&& 0xFF) :: ((payload.length >>> 40) &&& 0xFF) :: ((payload.length >>> 32) &&& 0xFF) :: ((payload.length >>> 24) &&& 0xFF) :: ((payload.length >>> 16) &&& 0xFF) :: ((payload.length >>> 8) &&& 0xFF) :: (payload.length &&& 0xFF) :: payload) := by
          simp [ws_build_frame, (show ¬ payload.length ≤ 125 by omega),
            (show ¬ payload.length ≤ 0xFFFF by omega),
            (show ¬ 14 + payload.length < 2 + 8 + 0 + payload.length by omega),
            (show ((if (false : Bool) = true then 0x80 else 0) ||| (2 &&& 0x0F) : Nat) = 2 from rfl),
            List.range_succ, (show (2 &&& 15 : Nat) = 2 from rfl), (show (1 &&& 15 : Nat) = 1 from rfl), (show (0x80 ||| 2 : Nat) = 130 from rfl), (show (0x80 ||| 1 : Nat) = 129 from rfl)]
        refine ⟨_, 10 + payload.length, ⟨M, [], 2, 0, true, 2⟩, hbuild, ?_⟩
        rw [hinit, ws_parser_feed_ext64 ⟨M, [], 2, 0, false, 0⟩ 2 payload rfl rfl rfl h63
          (by decide) (by decide) (by decide) (by decide) hmax']
        simp [ws_parser_complete, ws_frag_track, (show (2 &&& 128 : Nat) = 0 from rfl), (show (2 &&& 15 : Nat) = 2 from rfl), (show (2 &&& 8 : Nat) = 0 from rfl)] <;> try decide
    · rcases Nat.lt_or_ge payload.length 126 with hreg | hreg2
      · have hL : payload.length ≤ 125 := by omega
        have hbuild : ws_build_frame (14 + payload.length) true 2 none payload =
            some (130 :: payload.length :: payload) := by
          simp [ws_build_frame, hL,
            (show ¬ 14 + payload.length < 2 + 0 + 0 + payload.length by omega),
            (show ((if (true : Bool) = true then 0x80 else 0) ||| (2 &&& 0x0F) : Nat) = 130 from rfl), (show (2 &&& 0x0F : Nat) = 2 from rfl), (show (0x80 ||| 2 : Nat) = 130 from rfl)]
        refine ⟨_, 2 + payload.length, ⟨M, [], 2, 0, false, 0⟩, hbuild, ?_⟩
        rw [hinit, ws_parser_feed_small ⟨M, [], 2, 0, false, 0⟩ 130 payload rfl rfl rfl hL
          (by decide) (by decide) (by decide) (by decide) hmax']
        simp [ws_parser_complete, ws_frag_track, (show (130 &&& 128 : Nat) = 128 from rfl), (show (130 &&& 15 : Nat) = 2 from rfl), (show (2 &&& 8 : Nat) = 0 from rfl)] <;> try decide
      rcases Nat.lt_or_ge payload.length 65536 with hreg3 | hreg4
      · have hFFFF : payload.length ≤ 0xFFFF := by omega
        have hbuild : ws_build_frame (14 + payload.length) true 2 none payload =
            some (130 :: 126 :: ((payload.length >>> 8) &&& 0xFF) :: (payload.length &&& 0xFF) :: payload) := by
          simp [ws_build_frame, (show ¬ payload.length ≤ 125 by omega), hFFFF,
            (show ¬ 14 + payload.length < 2 + 2 + 0 + payload.length by omega),
            (show ((if (true : Bool) = true then 0x80 else 0) ||| (2 &&& 0x0F) : Nat) = 130 from rfl), (show (2 &&& 0x0F : Nat) = 2 from rfl), (show (0x80 ||| 2 : Nat) = 130 from rfl)]
        refine ⟨_, 4 + payload.length, ⟨M, [], 2, 0, false, 0⟩, hbuild, ?_⟩
        rw [hinit, ws_parser_feed_ext16 ⟨M, [], 2, 0, false, 0⟩ 130 payload rfl rfl rfl hFFFF
          (by decide) (by decide) (by decide) (by decide) hmax']
        simp [ws_parser_complete, ws_frag_track, (show (130 &&& 128 : Nat) = 128 from rfl), (show (130 &&& 15 : Nat) = 2 from rfl), (show (2 &&& 8 : Nat) = 0 from rfl)] <;> try decide
      · have hbuild : ws_build_frame (14 + payload.length) true 2 none payload =
            some (130 :: 127 :: ((payload.length >>> 56) &&& 0xFF) :: ((payload.length >>> 48) &&& 0xFF) :: ((payload.length >>> 40) &&& 0xFF) :: ((payload.length >>> 32) &&& 0xFF) :: ((payload.length >>> 24) &&& 0xFF) :: ((payload.length >>> 16) &&& 0xFF) :: ((payload.length >>> 8) &&& 0xFF) :: (payload.length &&& 0xFF) :: payload) := by
          simp [ws_build_frame, (show ¬ payload.length ≤ 125 by omega),
            (show ¬ payload.length ≤ 0xFFFF by omega),
            (show ¬ 14 + payload.length < 2 + 8 + 0 + payload.length by omega),
            (show ((if (true : Bool) = true then 0x80 else 0) ||| (2 &&& 0x0F) : Nat) = 130 from rfl),
            List.range_succ, (show (2 &&& 15 : Nat) = 2 from rfl), (show (1 &&& 15 : Nat) = 1 from rfl), (show (0x80 ||| 2 : Nat) = 130 from rfl), (show (0x80 ||| 1 : Nat) = 129 from rfl)]
        refine ⟨_, 10 + payload.length, ⟨M, [], 2, 0, false, 0⟩, hbuild, ?_⟩
        rw [hinit, ws_parser_feed_ext64 ⟨M, [], 2, 0, false, 0⟩ 130 payload rfl rfl rfl h63
          (by decide) (by decide) (by decide) (by decide) hmax']
        simp [ws_parser_complete, ws_frag_track, (show (130 &&& 128 : Nat) = 128 from rfl), (show (130 &&& 15 : Nat) = 2 from rfl), (show (2 &&& 8 : Nat) = 0 from rfl)] <;> try decide
  · -- opcode 8 (control)
    have hf : fin = true := (hctrl (by omega)).1
    have hL : payload.length ≤ 125 := (hctrl (by omega)).2
    subst hf
    have hL : payload.length ≤ 125 := by omega
    have hbuild : ws_build_frame (14 + payload.length) true 8 none payload =
        some (136 :: payload.length :: payload) := by
      simp [ws_build_frame, hL,
        (show ¬ 14 + payload.length < 2 + 0 + 0 + payload.length by omega),
        (show ((if (true : Bool) = true then 0x80 else 0) ||| (8 &&& 0x0F) : Nat) = 136 from rfl), (show (8 &&& 0x0F : Nat) = 8 from rfl), (show (0x80 ||| 8 : Nat) = 136 from rfl)]
    refine ⟨_, 2 + payload.length, ⟨M, [], 2, 0, false, 0⟩, hbuild, ?_⟩
    rw [hinit, ws_parser_feed_small ⟨M, [], 2, 0, false, 0⟩ 136 payload rfl rfl rfl hL
      (by decide) (by decide) (by decide) (by decide) hmax']
    have hcl := hclose rfl
    by_cases h2L : 2 ≤ payload.length
    · have hcv := (hcl.2 h2L).1
      rcases (hcl.2 h2L).2 with hle2 | hutf
      · have hz : payload.length - 2 = 0 := by omega
        simp [ws_parser_complete, ws_frag_track, hcl.1, hcv, hz, h2L, (show (136 &&& 128 : Nat) = 128 from rfl), (show (136 &&& 15 : Nat) = 8 from rfl), (show (8 &&& 8 : Nat) = 8 from rfl)] <;> try decide
      · simp [ws_parser_complete, ws_frag_track, hcl.1, hcv, hutf, h2L, (show (136 &&& 128 : Nat) = 128 from rfl), (show (136 &&& 15 : Nat) = 8 from rfl), (show (8 &&& 8 : Nat) = 8 from rfl)]
    · have hz : payload.length = 0 := by omega
      simp [ws_parser_complete, ws_frag_track, hz, (show (136 &&& 128 : Nat) = 128 from rfl), (show (136 &&& 15 : Nat) = 8 from rfl), (show (8 &&& 8 : Nat) = 8 from rfl)] <;> try decide
  · -- opcode 9 (control)
    have hf : fin = true := (hctrl (by omega)).1
    have hL : payload.length ≤ 125 := (hctrl (by omega)).2
    subst hf
    have hL : payload.length ≤ 125 := by omega
    have hbuild : ws_build_frame (14 + payload.length) true 9 none payload =
        some (137 :: payload.length :: payload) := by
      simp [ws_build_frame, hL,
        (show ¬ 14 + payload.length < 2 + 0 + 0 + payload.length by omega),
        (show ((if (true : Bool) = true then 0x80 else 0) ||| (9 &&& 0x0F) : Nat) = 137 from rfl), (show (9 &&& 0x0F : Nat) = 9 from rfl), (show (0x80 ||| 9 : Nat) = 137 from rfl)]
    refine ⟨_, 2 + payload.length, ⟨M, [], 2, 0, false, 0⟩, hbuild, ?_⟩
    rw [hinit, ws_parser_feed_small ⟨M, [], 2, 0, false, 0⟩ 137 payload rfl rfl rfl hL
      (by decide) (by decide) (by decide) (by decide) hmax']
    simp [ws_parser_complete, ws_frag_track, (show (137 &&& 128 : Nat) = 128 from rfl), (show (137 &&& 15 : Nat) = 9 from rfl), (show (9 &&& 8 : Nat) = 8 from rfl)] <;> try decide
  · -- opcode 10 (control)
    have hf : fin = true := (hctrl (by omega)).1
    have hL : payload.length ≤ 125 := (hctrl (by omega)).2
    subst hf
    have hL : payload.length ≤ 125 := by omega
    have hbuild : ws_build_frame (14 + payload.length) true 10 none payload =
        some (138 :: payload.length :: payload) := by
      simp [ws_build_frame, hL,
        (show ¬ 14 + payload.length < 2 + 0 + 0 + payload.length by omega),
        (show ((if (true : Bool) = true then 0x80 else 0) ||| (10 &&& 0x0F) : Nat) = 138 from rfl), (show (10 &&& 0x0F : Nat) = 10 from rfl), (show (0x80 ||| 10 : Nat) = 138 from rfl)]
    refine ⟨_, 2 + payload.length, ⟨M, [], 2, 0, false, 0⟩, hbuild, ?_⟩
    rw [hinit, ws_parser_feed_small ⟨M, [], 2, 0, false, 0⟩ 138 payload rfl rfl rfl hL
      (by decide) (by decide) (by decide) (by decide) hmax']
    simp [ws_parser_complete, ws_frag_track, (show (138 &&& 128 : Nat) = 128 from rfl), (show (138 &&& 15 : Nat) = 10 from rfl), (show (10 &&& 8 : Nat) = 8 from rfl)] <;> try decide

/-- Witness for C3 (amended) at a BINARY frame with payload `[1, 2, 3]`. -/
theorem C3_roundtrip_unmasked_witness :
    ∃ (bytes : List Nat) (consumed : Nat) (p' : Parser),
      ws_build_frame 17 true 0x2 none [1, 2, 3] = some bytes ∧
      ws_parser_feed (ws_parser_init 0) bytes = .frame consumed ⟨0x2, [1, 2, 3], true⟩ p' :=
  C3_roundtrip_unmasked 0 true 0x2 [1, 2, 3] (by decide) (by decide) (by decide) (by decide)
    (by decide) (by decide)

/-- Counterexample to C3 as stated: with mask key `[1, 0, 0, 0]` and payload
`[1]`, the builder emits a masked frame, but `ws_parser_feed` never unmasks —
the parsed payload is `[0]`, not the original `[1]`. -/
theorem C3_masked_payload_not_recovered :
    ws_build_frame 7 true 0x2 (some [1, 0, 0, 0]) [1] =
      some [0x82, 0x81, 1, 0, 0, 0, 0] ∧
    ws_parser_feed (ws_parser_init 0) [0x82, 0x81, 1, 0, 0, 0, 0] =
      .frame 7 ⟨0x2, [0], true⟩ ⟨2 ^ 20, [], 2, 0, false, 0⟩ ∧
    ¬ ([0] : List Nat) = [1] := by
  refine ⟨by decide, by decide, by decide⟩

/-- Events observed by the engine while driving `ws_parser_feed` over a
byte stream: completed frames (with the payload view of the completing call)
and terminal parse errors. -/
inductive Event where
  | frame (type : Nat) (fin : Bool) (payload : List Nat)
  | failure (e : PError)
  deriving DecidableEq, Repr

/-- How a chunk's run ended: all bytes consumed and waiting for more input,
or a terminal parse error. -/
inductive ChunkEnd where
  | ok (p : Parser)
  | fail (e : PError) (p : Parser)
  deriving DecidableEq, Repr

/-- Driving `ws_parser_feed` over one chunk the way the engine does: feed,
and while a frame completes, feed again with the bytes the parser did not
consume.  `fuel` only bounds the recursion (each completed frame consumes at
least one byte, so `data.length + 1` is always enough — `ws_run_chunk_fuel`). -/
def ws_run_chunk_go (fuel : Nat) (p : Parser) (data : List Nat) : List Event × ChunkEnd :=
  match fuel with
  | 0 => ([], .ok p)
  | fuel + 1 =>
    match ws_parser_feed p data with
    | .needMore _ _ p' => ([], .ok p')
    | .err e _ p' => ([.failure e], .fail e p')
    | .frame c f p' =>
      let r := ws_run_chunk_go fuel p' (data.drop c)
      (.frame f.type f.isFinal f.payload :: r.1, r.2)

/-- One chunk's run. -/
def ws_run_chunk (p : Parser) (data : List Nat) : List Event × ChunkEnd :=
  ws_run_chunk_go (data.length + 1) p data

/-- Chunk-by-chunk run: the engine stops feeding after a parse error. -/
def ws_run_chunks (p : Parser) : List (List Nat) → List Event
  | [] => []
  | c :: cs =>
    match ws_run_chunk p c with
    | (evs, .ok p') => evs ++ ws_run_chunks p' cs
    | (evs, .fail _ _) => evs

/-- The parser is between frames: empty header accumulator, base header
request, no payload read. -/
def atBoundary (p : Parser) : Bool :=
  decide (p.hdrBytes = [] ∧ p.hdrNeed = 2 ∧ p.payloadRead = 0)

/-- A chunking is frame-aligned for `p` when after every chunk (short of a
terminal error) the parser sits exactly between frames. -/
def ws_aligned (p : Parser) : List (List Nat) → Bool
  | [] => true
  | c :: cs =>
    match ws_run_chunk p c with
    | (_, .ok p') => atBoundary p' && ws_aligned p' cs
    | (_, .fail _ _) => true

/-- States reachable by feeding a freshly initialized parser: the header is
still being requested, or a complete header awaits more payload. -/
def ParserWf (p : Parser) : Prop :=
  2 ≤ p.hdrNeed ∧
    (p.hdrBytes.length < p.hdrNeed ∨
      (¬ p.hdrBytes.length < p.hdrNeed ∧
        ∃ hdr, ws_parse_header p = .done hdr ∧ p.payloadRead < hdr.payloadLen))

theorem ws_parser_init_wf (maxF : Nat) : ParserWf (ws_parser_init maxF) := by
  constructor
  · simp [ws_parser_init]
  · left; simp [ws_parser_init]

/-- Appending input does not change a header-phase decision that completed. -/
theorem ws_feed_header_append_done {p : Parser} {a : List Nat} {c : Nat} {h : FrameHeader}
    {c' : Nat} {p' : Parser} {rest : List Nat}
    (hf : ws_feed_header p a c = .done h c' p' rest) (b : List Nat) :
    ws_feed_header p (a ++ b) c = .done h c' p' (rest ++ b) := by
  induction a generalizing p c with
  | nil =>
    rw [ws_feed_header.eq_def] at hf
    rw [List.nil_append, ws_feed_header.eq_def]
    by_cases hc : p.hdrBytes.length < p.hdrNeed
    · rw [if_pos hc] at hf
      simp at hf
    · rw [if_neg hc] at hf
      rw [if_neg hc]
      cases hp : ws_parse_header p with
      | err e => rw [hp] at hf; simp at hf
      | more n => rw [hp] at hf; simp at hf
      | done hh =>
        rw [hp] at hf
        simp only [HeaderFeed.done.injEq] at hf
        obtain ⟨h1, h2, h3, h4⟩ := hf
        subst h1; subst h2; subst h3
        rw [← h4]
        simp
  | cons x xs ih =>
    rw [ws_feed_header.eq_def] at hf
    rw [List.cons_append, ws_feed_header.eq_def]
    by_cases hc : p.hdrBytes.length < p.hdrNeed
    · rw [if_pos hc] at hf
      rw [if_pos hc]
      exact ih hf
    · rw [if_neg hc] at hf
      rw [if_neg hc]
      cases hp : ws_parse_header p with
      | err e => rw [hp] at hf; simp at hf
      | done hh =>
        rw [hp] at hf
        simp only [HeaderFeed.done.injEq] at hf
        obtain ⟨h1, h2, h3, h4⟩ := hf
        subst h1; subst h2; subst h3
        rw [← h4]
        simp
      | more n =>
        rw [hp] at hf
        exact ih hf

/-- Every "need more" request of the tail parser asks for at least 2 bytes. -/
theorem ws_parse_header_rest_more_two {p : Parser} {fin : Bool} {opcode : Nat} {masked : Bool}
    {payloadLen afterLen n : Nat}
    (h : ws_parse_header_rest p fin opcode masked payloadLen afterLen = .more n) :
    2 ≤ n := by
  simp only [ws_parse_header_rest] at h
  split at h
  · next hc =>
    simp only [HdrResult.more.injEq] at h
    omega
  · repeat' split at h
    all_goals simp at h

/-- Every "need more" request of `ws_parse_header` asks for at least 2 bytes,
provided the current request already was. -/
theorem ws_parse_header_more_two {p : Parser} {n : Nat}
    (h : ws_parse_header p = .more n) (h2 : 2 ≤ p.hdrNeed) : 2 ≤ n := by
  simp only [ws_parse_header] at h
  split at h
  · next hc =>
    simp only [HdrResult.more.injEq] at h
    omega
  · repeat' split at h
    all_goals first
      | exact ws_parse_header_rest_more_two h
      | (simp only [HdrResult.more.injEq] at h; omega)
      | simp at h

/-- Appending input does not change a header-phase rejection. -/
theorem ws_feed_header_append_err {p : Parser} {a : List Nat} {c : Nat} {e : PError}
    {c' : Nat} {p' : Parser}
    (hf : ws_feed_header p a c = .err e c' p') (b : List Nat) :
    ws_feed_header p (a ++ b) c = .err e c' p' := by
  induction a generalizing p c with
  | nil =>
    rw [ws_feed_header.eq_def] at hf
    rw [List.nil_append, ws_feed_header.eq_def]
    by_cases hc : p.hdrBytes.length < p.hdrNeed
    · rw [if_pos hc] at hf
      simp at hf
    · rw [if_neg hc] at hf
      rw [if_neg hc]
      cases hp : ws_parse_header p with
      | err e2 =>
        rw [hp] at hf
        simp only [HeaderFeed.err.injEq] at hf
        obtain ⟨h1, h2, h3⟩ := hf
        subst h1; subst h2; subst h3
        rfl
      | more n => rw [hp] at hf; simp at hf
      | done hh => rw [hp] at hf; simp at hf
  | cons x xs ih =>
    rw [ws_feed_header.eq_def] at hf
    rw [List.cons_append, ws_feed_header.eq_def]
    by_cases hc : p.hdrBytes.length < p.hdrNeed
    · rw [if_pos hc] at hf
      rw [if_pos hc]
      exact ih hf
    · rw [if_neg hc] at hf
      rw [if_neg hc]
      cases hp : ws_parse_header p with
      | err e2 =>
        rw [hp] at hf
        simp only [HeaderFeed.err.injEq] at hf
        obtain ⟨h1, h2, h3⟩ := hf
        subst h1; subst h2; subst h3
        rfl
      | done hh => rw [hp] at hf; simp at hf
      | more n =>
        rw [hp] at hf
        exact ih hf

/-- When the header loop runs out of input, feeding the same bytes followed
by more input resumes exactly where the first call stopped. -/
theorem ws_feed_header_append_more {p : Parser} {a : List Nat} {c : Nat}
    {c' : Nat} {q : Parser}
    (hf : ws_feed_header p a c = .needMore c' q) (b : List Nat) :
    ws_feed_header p (a ++ b) c = ws_feed_header q b c' := by
  induction a generalizing p c with
  | nil =>
    rw [ws_feed_header.eq_def] at hf
    rw [List.nil_append]
    by_cases hc : p.hdrBytes.length < p.hdrNeed
    · rw [if_pos hc] at hf
      simp only [HeaderFeed.needMore.injEq] at hf
      obtain ⟨h1, h2⟩ := hf
      subst h1; subst h2
      rfl
    · rw [if_neg hc] at hf
      cases hp : ws_parse_header p with
      | err e => rw [hp] at hf; simp at hf
      | done hh => rw [hp] at hf; simp at hf
      | more n =>
        rw [hp] at hf
        simp only [HeaderFeed.needMore.injEq] at hf
        obtain ⟨h1, h2⟩ := hf
        subst h1; subst h2
        have hlt : p.hdrBytes.length < n := ws_parse_header_more hp
        cases b with
        | nil =>
          rw [ws_feed_header.eq_def, if_neg hc, hp]
          rw [ws_feed_header.eq_def, if_pos (by simpa using hlt)]
        | cons y ys =>
          rw [ws_feed_header.eq_def, if_neg hc, hp]
          rw [ws_feed_header.eq_def, if_pos (by simpa using hlt)]
  | cons x xs ih =>
    rw [ws_feed_header.eq_def] at hf
    rw [List.cons_append, ws_feed_header.eq_def]
    by_cases hc : p.hdrBytes.length < p.hdrNeed
    · rw [if_pos hc] at hf
      rw [if_pos hc]
      exact ih hf
    · rw [if_neg hc] at hf
      rw [if_neg hc]
      cases hp : ws_parse_header p with
      | err e => rw [hp] at hf; simp at hf
      | done hh => rw [hp] at hf; simp at hf
      | more n =>
        rw [hp] at hf
        exact ih hf

/-- State facts of an out-of-input header loop: every input byte was copied
into the header accumulator, the request still exceeds what is accumulated,
and the payload-phase fields are untouched. -/
theorem ws_feed_header_needMore_state {p : Parser} {a : List Nat} {c : Nat}
    {c' : Nat} {q : Parser}
    (hf : ws_feed_header p a c = .needMore c' q) :
    q.hdrBytes = p.hdrBytes ++ a ∧ c' = c + a.length ∧
      q.hdrBytes.length < q.hdrNeed ∧ (2 ≤ p.hdrNeed → 2 ≤ q.hdrNeed) ∧
      q.maxFrameSize = p.maxFrameSize ∧ q.payloadRead = p.payloadRead ∧
      q.inFragmentedMessage = p.inFragmentedMessage ∧
      q.firstFragmentOpcode = p.firstFragmentOpcode := by
  induction a generalizing p c with
  | nil =>
    rw [ws_feed_header.eq_def] at hf
    by_cases hc : p.hdrBytes.length < p.hdrNeed
    · rw [if_pos hc] at hf
      simp only [HeaderFeed.needMore.injEq] at hf
      obtain ⟨h1, h2⟩ := hf
      subst h1; subst h2
      exact ⟨by simp, by simp, hc, fun h => h, rfl, rfl, rfl, rfl⟩
    · rw [if_neg hc] at hf
      cases hp : ws_parse_header p with
      | err e => rw [hp] at hf; simp at hf
      | done hh => rw [hp] at hf; simp at hf
      | more n =>
        rw [hp] at hf
        simp only [HeaderFeed.needMore.injEq] at hf
        obtain ⟨h1, h2⟩ := hf
        subst h1; subst h2
        refine ⟨by simp, by simp, ?_, ?_, rfl, rfl, rfl, rfl⟩
        · simpa using ws_parse_header_more hp
        · intro hh2
          simpa using ws_parse_header_more_two hp hh2
  | cons x xs ih =>
    rw [ws_feed_header.eq_def] at hf
    by_cases hc : p.hdrBytes.length < p.hdrNeed
    · rw [if_pos hc] at hf
      obtain ⟨h1, h2, h3, h4, h5, h6, h7, h8⟩ := ih hf
      refine ⟨?_, ?_, h3, ?_, h5, h6, h7, h8⟩
      · rw [h1]; simp
      · simp only [List.length_cons]; omega
      · intro hh2
        exact h4 hh2
    · rw [if_neg hc] at hf
      cases hp : ws_parse_header p with
      | err e => rw [hp] at hf; simp at hf
      | done hh => rw [hp] at hf; simp at hf
      | more n =>
        rw [hp] at hf
        obtain ⟨h1, h2, h3, h4, h5, h6, h7, h8⟩ := ih hf
        refine ⟨?_, ?_, h3, ?_, h5, h6, h7, h8⟩
        · rw [h1]; simp
        · simp only [List.length_cons]; omega
        · intro hh2
          exact h4 (ws_parse_header_more_two hp hh2)

/-- A completed parse implies the accumulated bytes met the request (the
entry guard of `ws_parse_header`). -/
theorem ws_parse_header_done_not_lt {p : Parser} {hdr : FrameHeader}
    (h : ws_parse_header p = .done hdr) : ¬ p.hdrBytes.length < p.hdrNeed := by
  intro hlt
  rw [ws_parse_header, if_pos hlt] at h
  simp at h

/-- Header parsing never reads `payloadRead`. -/
theorem ws_parse_header_payloadRead (p : Parser) (x : Nat) :
    ws_parse_header { p with payloadRead := x } = ws_parse_header p := rfl

/-- State facts of a completed header loop: the parse of the resulting state
yields exactly the returned header, consumption is bounded by the input, the
unconsumed input is a suffix, and the payload-phase fields are untouched. -/
theorem ws_feed_header_done_state {p : Parser} {a : List Nat} {c : Nat}
    {h : FrameHeader} {c' : Nat} {p' : Parser} {rest : List Nat}
    (hf : ws_feed_header p a c = .done h c' p' rest) :
    ws_parse_header p' = .done h ∧ c ≤ c' ∧ c' ≤ c + a.length ∧
      rest = a.drop (c' - c) ∧
      (2 ≤ p.hdrNeed → 2 ≤ p'.hdrNeed) ∧ p'.maxFrameSize = p.maxFrameSize ∧
      p'.payloadRead = p.payloadRead ∧
      p'.inFragmentedMessage = p.inFragmentedMessage ∧
      p'.firstFragmentOpcode = p.firstFragmentOpcode := by
  induction a generalizing p c with
  | nil =>
    rw [ws_feed_header.eq_def] at hf
    by_cases hc : p.hdrBytes.length < p.hdrNeed
    · rw [if_pos hc] at hf
      simp at hf
    · rw [if_neg hc] at hf
      cases hp : ws_parse_header p with
      | err e => rw [hp] at hf; simp at hf
      | more n => rw [hp] at hf; simp at hf
      | done hh =>
        rw [hp] at hf
        simp only [HeaderFeed.done.injEq] at hf
        obtain ⟨h1, h2, h3, h4⟩ := hf
        subst h1; subst h2; subst h3
        exact ⟨hp, le_refl c, by simp, by simp [← h4], fun h => h, rfl, rfl, rfl, rfl⟩
  | cons x xs ih =>
    rw [ws_feed_header.eq_def] at hf
    by_cases hc : p.hdrBytes.length < p.hdrNeed
    · rw [if_pos hc] at hf
      obtain ⟨h1, h2, h3, h4, h5, h6, h7, h8, h9⟩ := ih hf
      refine ⟨h1, by omega, ?_, ?_, h5, h6, h7, h8, h9⟩
      · simp only [List.length_cons]; omega
      · have hcc : c' - c = (c' - (c + 1)) + 1 := by omega
        rw [hcc, List.drop_succ_cons]
        exact h4
    · rw [if_neg hc] at hf
      cases hp : ws_parse_header p with
      | err e => rw [hp] at hf; simp at hf
      | done hh =>
        rw [hp] at hf
        simp only [HeaderFeed.done.injEq] at hf
        obtain ⟨h1, h2, h3, h4⟩ := hf
        subst h1; subst h2; subst h3
        exact ⟨hp, le_refl c, by simp, by simp [← h4], fun h => h, rfl, rfl, rfl, rfl⟩
      | more n =>
        rw [hp] at hf
        obtain ⟨h1, h2, h3, h4, h5, h6, h7, h8, h9⟩ := ih hf
        refine ⟨h1, by omega, ?_, ?_, ?_, h6, h7, h8, h9⟩
        · simp only [List.length_cons]; omega
        · have hcc : c' - c = (c' - (c + 1)) + 1 := by omega
          rw [hcc, List.drop_succ_cons]
          exact h4
        · intro hh2
          exact h5 (ws_parse_header_more_two hp hh2)

/-- A frame decision of `ws_parser_feed` is unchanged by appending input. -/
theorem ws_parser_feed_append_frame {p : Parser} {a : List Nat} {c : Nat}
    {f : ParsedFrame} {q : Parser}
    (hf : ws_parser_feed p a = .frame c f q) (b : List Nat) :
    ws_parser_feed p (a ++ b) = .frame c f q := by
  cases hfh : ws_feed_header p a 0 with
  | err e c0 p1 => simp [ws_parser_feed, hfh] at hf
  | needMore c0 p1 => simp [ws_parser_feed, hfh] at hf
  | done hdr c0 p1 rest =>
    have h2 := ws_feed_header_append_done hfh b
    simp only [ws_parser_feed, hfh] at hf
    simp only [ws_parser_feed, h2]
    by_cases hcnd : p1.payloadRead + min (hdr.payloadLen - p1.payloadRead) rest.length <
        hdr.payloadLen
    · rw [if_pos hcnd] at hf
      exact absurd hf (by simp)
    · rw [if_neg hcnd] at hf
      have hle : hdr.payloadLen - p1.payloadRead ≤ rest.length := by omega
      have htake2 : min (hdr.payloadLen - p1.payloadRead) (rest ++ b).length =
          min (hdr.payloadLen - p1.payloadRead) rest.length := by
        rw [List.length_append]; omega
      rw [htake2, if_neg hcnd, List.take_append_of_le_length (by omega)]
      exact hf

/-- An error decision of `ws_parser_feed` is unchanged by appending input. -/
theorem ws_parser_feed_append_err {p : Parser} {a : List Nat} {e : PError} {c : Nat}
    {q : Parser}
    (hf : ws_parser_feed p a = .err e c q) (b : List Nat) :
    ws_parser_feed p (a ++ b) = .err e c q := by
  cases hfh : ws_feed_header p a 0 with
  | err e2 c0 p1 =>
    have h2 := ws_feed_header_append_err hfh b
    simp only [ws_parser_feed, hfh] at hf
    simp only [ws_parser_feed, h2]
    exact hf
  | needMore c0 p1 => simp [ws_parser_feed, hfh] at hf
  | done hdr c0 p1 rest =>
    have h2 := ws_feed_header_append_done hfh b
    simp only [ws_parser_feed, hfh] at hf
    simp only [ws_parser_feed, h2]
    by_cases hcnd : p1.payloadRead + min (hdr.payloadLen - p1.payloadRead) rest.length <
        hdr.payloadLen
    · rw [if_pos hcnd] at hf
      exact absurd hf (by simp)
    · rw [if_neg hcnd] at hf
      have hle : hdr.payloadLen - p1.payloadRead ≤ rest.length := by omega
      have htake2 : min (hdr.payloadLen - p1.payloadRead) (rest ++ b).length =
          min (hdr.payloadLen - p1.payloadRead) rest.length := by
        rw [List.length_append]; omega
      rw [htake2, if_neg hcnd, List.take_append_of_le_length (by omega)]
      exact hf

/-- Feeding no bytes to a well-formed parser consumes nothing and changes
nothing. -/
theorem ws_parser_feed_nil {p : Parser} (hw : ParserWf p) :
    ws_parser_feed p [] = .needMore 0 [] p := by
  obtain ⟨h2, hcase⟩ := hw
  by_cases hc : p.hdrBytes.length < p.hdrNeed
  · have hfh : ws_feed_header p [] 0 = .needMore 0 p := by
      rw [ws_feed_header.eq_def, if_pos hc]
    simp only [ws_parser_feed, hfh]
  · rcases hcase with hlt | ⟨-, hdr, hp, hread⟩
    · exact absurd hlt hc
    · have hfh : ws_feed_header p [] 0 = .done hdr 0 p [] := by
        rw [ws_feed_header.eq_def, if_neg hc, hp]
      simp only [ws_parser_feed, hfh]
      simp [hread]

/-- Frame completion reports exactly the consumption it was handed. -/
theorem ws_parser_complete_consumed {p : Parser} {hdr : FrameHeader}
    {view : List Nat} {c c' : Nat} {f : ParsedFrame} {q : Parser}
    (h : ws_parser_complete p hdr view c = .frame c' f q) : c' = c := by
  simp only [ws_parser_complete] at h
  cases hft : ws_frag_track p hdr with
  | none => simp [hft] at h
  | some p1 =>
    simp only [hft] at h
    split_ifs at h
    all_goals first
      | (simp only [FeedResult.frame.injEq] at h; exact h.1.symm)
      | simp at h

/-- Frame completion either rejects or reports a frame; it never asks for
more input. -/
theorem ws_parser_complete_cases (p : Parser) (hdr : FrameHeader) (view : List Nat)
    (c : Nat) :
    (∃ e q, ws_parser_complete p hdr view c = .err e c q) ∨
      (∃ f q, ws_parser_complete p hdr view c = .frame c f q) := by
  simp only [ws_parser_complete]
  cases hft : ws_frag_track p hdr with
  | none => simp only [hft]; exact Or.inl ⟨.protocol, p, rfl⟩
  | some p1 =>
    simp only [hft]
    split_ifs <;> simp

/-- The parser state reported with a completed frame is reset to await a
fresh header. -/
theorem ws_parser_complete_frame_state {p : Parser} {hdr : FrameHeader}
    {view : List Nat} {c c' : Nat} {f : ParsedFrame} {q : Parser}
    (h : ws_parser_complete p hdr view c = .frame c' f q) :
    q.hdrBytes = [] ∧ q.hdrNeed = 2 ∧ q.payloadRead = 0 := by
  simp only [ws_parser_complete] at h
  cases hft : ws_frag_track p hdr with
  | none => simp [hft] at h
  | some p1 =>
    simp only [hft] at h
    split_ifs at h
    all_goals first
      | (simp only [FeedResult.frame.injEq] at h; obtain ⟨-, -, h3⟩ := h; subst h3; exact ⟨rfl, rfl, rfl⟩)
      | simp at h

/-- A parser left waiting for more input by `ws_parser_feed` is still
well-formed. -/
theorem ws_parser_feed_needMore_wf {p : Parser} {a : List Nat} {c : Nat}
    {v : List Nat} {q : Parser} (hw : ParserWf p)
    (hfd : ws_parser_feed p a = .needMore c v q) : ParserWf q := by
  cases hfh : ws_feed_header p a 0 with
  | err e c0 p1 => simp [ws_parser_feed, hfh] at hfd
  | needMore c0 p1 =>
    simp only [ws_parser_feed, hfh, FeedResult.needMore.injEq] at hfd
    obtain ⟨-, -, h3⟩ := hfd
    subst h3
    obtain ⟨-, -, h3, h4, -, -, -, -⟩ := ws_feed_header_needMore_state hfh
    exact ⟨h4 hw.1, Or.inl h3⟩
  | done hdr c0 p1 rest =>
    obtain ⟨hp1, -, -, -, h5, -, -, -, -⟩ := ws_feed_header_done_state hfh
    simp only [ws_parser_feed, hfh] at hfd
    by_cases hcnd : p1.payloadRead + min (hdr.payloadLen - p1.payloadRead) rest.length <
        hdr.payloadLen
    · rw [if_pos hcnd] at hfd
      simp only [FeedResult.needMore.injEq] at hfd
      obtain ⟨-, -, h3⟩ := hfd
      subst h3
      refine ⟨h5 hw.1, Or.inr ⟨ws_parse_header_done_not_lt hp1, hdr, ?_, hcnd⟩⟩
      rw [ws_parse_header_payloadRead]
      exact hp1
    · rw [if_neg hcnd] at hfd
      rcases ws_parser_complete_cases { p1 with payloadRead := p1.payloadRead + min (hdr.payloadLen - p1.payloadRead) rest.length } hdr (rest.take (min (hdr.payloadLen - p1.payloadRead) rest.length)) (c0 + min (hdr.payloadLen - p1.payloadRead) rest.length) with ⟨e, q2, hq⟩ | ⟨f2, q2, hq⟩ <;> rw [hq] at hfd <;> simp at hfd

/-- The parser state reported with a frame by `ws_parser_feed` is
well-formed (it is reset). -/
theorem ws_parser_feed_frame_wf {p : Parser} {a : List Nat} {c : Nat}
    {f : ParsedFrame} {q : Parser}
    (hfd : ws_parser_feed p a = .frame c f q) : ParserWf q := by
  cases hfh : ws_feed_header p a 0 with
  | err e c0 p1 => simp [ws_parser_feed, hfh] at hfd
  | needMore c0 p1 => simp [ws_parser_feed, hfh] at hfd
  | done hdr c0 p1 rest =>
    simp only [ws_parser_feed, hfh] at hfd
    by_cases hcnd : p1.payloadRead + min (hdr.payloadLen - p1.payloadRead) rest.length <
        hdr.payloadLen
    · rw [if_pos hcnd] at hfd
      simp at hfd
    · rw [if_neg hcnd] at hfd
      obtain ⟨h1, h2, h3⟩ := ws_parser_complete_frame_state hfd
      refine ⟨by omega, Or.inl ?_⟩
      rw [h1, h2]
      simp

/-- `ws_parser_feed` never consumes more bytes than it was given when it
reports a frame. -/
theorem ws_parser_feed_frame_le {p : Parser} {a : List Nat} {c : Nat}
    {f : ParsedFrame} {q : Parser}
    (hfd : ws_parser_feed p a = .frame c f q) : c ≤ a.length := by
  cases hfh : ws_feed_header p a 0 with
  | err e c0 p1 => simp [ws_parser_feed, hfh] at hfd
  | needMore c0 p1 => simp [ws_parser_feed, hfh] at hfd
  | done hdr c0 p1 rest =>
    obtain ⟨-, -, h3, h4, -, -, -, -, -⟩ := ws_feed_header_done_state hfh
    simp only [ws_parser_feed, hfh] at hfd
    by_cases hcnd : p1.payloadRead + min (hdr.payloadLen - p1.payloadRead) rest.length <
        hdr.payloadLen
    · rw [if_pos hcnd] at hfd
      simp at hfd
    · rw [if_neg hcnd] at hfd
      have hcc := ws_parser_complete_consumed hfd
      have hr : rest.length = a.length - (c0 - 0) := by rw [h4, List.length_drop]
      have hm : min (hdr.payloadLen - p1.payloadRead) rest.length ≤ rest.length :=
        Nat.min_le_right _ _
      omega

/-- On nonempty input from a well-formed state, a reported frame consumed at
least one byte (progress). -/
theorem ws_parser_feed_frame_pos {p : Parser} {a : List Nat} {c : Nat}
    {f : ParsedFrame} {q : Parser} (hw : ParserWf p) (hne : a ≠ [])
    (hfd : ws_parser_feed p a = .frame c f q) : 1 ≤ c := by
  cases hfh : ws_feed_header p a 0 with
  | err e c0 p1 => simp [ws_parser_feed, hfh] at hfd
  | needMore c0 p1 => simp [ws_parser_feed, hfh] at hfd
  | done hdr c0 p1 rest =>
    simp only [ws_parser_feed, hfh] at hfd
    by_cases hcnd : p1.payloadRead + min (hdr.payloadLen - p1.payloadRead) rest.length <
        hdr.payloadLen
    · rw [if_pos hcnd] at hfd
      simp at hfd
    · rw [if_neg hcnd] at hfd
      have hcc := ws_parser_complete_consumed hfd
      rcases hw.2 with hlt | ⟨hnlt, hdr2, hp2, hread2⟩
      · cases a with
        | nil => exact absurd rfl hne
        | cons x xs =>
          rw [ws_feed_header_cons hlt] at hfh
          obtain ⟨-, h2, -, -, -, -, -, -, -⟩ := ws_feed_header_done_state hfh
          omega
      · have hfh2 : ws_feed_header p a 0 = .done hdr2 0 p a := by
          rw [ws_feed_header.eq_def, if_neg hnlt, hp2]
        rw [hfh2] at hfh
        simp only [HeaderFeed.done.injEq] at hfh
        obtain ⟨hA, hB, hC, hD⟩ := hfh
        rw [hA] at hread2
        rw [← hC, ← hD] at hcc
        have h1 : 1 ≤ a.length := by
          cases a with
          | nil => exact absurd rfl hne
          | cons x xs => simp
        omega

/-- A waiting answer at a frame boundary from a well-formed state only
happens on empty input: any partial frame leaves header bytes accumulated or
payload counted. -/
theorem ws_parser_feed_needMore_boundary {p : Parser} {a : List Nat} {c : Nat}
    {v : List Nat} {q : Parser} (hw : ParserWf p)
    (hfd : ws_parser_feed p a = .needMore c v q) (hb : atBoundary q = true) :
    a = [] ∧ q = p := by
  have hfd0 := hfd
  cases hfh : ws_feed_header p a 0 with
  | err e c0 p1 => simp [ws_parser_feed, hfh] at hfd
  | needMore c0 q0 =>
    simp only [ws_parser_feed, hfh, FeedResult.needMore.injEq] at hfd
    obtain ⟨-, -, h3⟩ := hfd
    subst h3
    obtain ⟨hB, -, -, -, -, -, -, -⟩ := ws_feed_header_needMore_state hfh
    simp only [atBoundary, decide_eq_true_eq] at hb
    have hanil : a = [] := by
      have hqb := hb.1
      rw [hB] at hqb
      exact (List.append_eq_nil.mp hqb).2
    subst hanil
    rw [ws_parser_feed_nil hw] at hfd0
    simp only [FeedResult.needMore.injEq] at hfd0
    exact ⟨rfl, hfd0.2.2.symm⟩
  | done hdr c0 p1 rest =>
    obtain ⟨hp1, -, -, -, h5, -, -, -, -⟩ := ws_feed_header_done_state hfh
    simp only [ws_parser_feed, hfh] at hfd
    by_cases hcnd : p1.payloadRead + min (hdr.payloadLen - p1.payloadRead) rest.length <
        hdr.payloadLen
    · rw [if_pos hcnd] at hfd
      simp only [FeedResult.needMore.injEq] at hfd
      obtain ⟨-, -, h3⟩ := hfd
      subst h3
      simp only [atBoundary, decide_eq_true_eq] at hb
      have hb1 : p1.hdrBytes = [] := hb.1
      have hnl := ws_parse_header_done_not_lt hp1
      have h2p1 := h5 hw.1
      rw [hb1] at hnl
      simp at hnl
      omega
    · rw [if_neg hcnd] at hfd
      rcases ws_parser_complete_cases { p1 with payloadRead := p1.payloadRead + min (hdr.payloadLen - p1.payloadRead) rest.length } hdr (rest.take (min (hdr.payloadLen - p1.payloadRead) rest.length)) (c0 + min (hdr.payloadLen - p1.payloadRead) rest.length) with ⟨e, q2, hq⟩ | ⟨f2, q2, hq⟩ <;> rw [hq] at hfd <;> simp at hfd

/-- On empty input a well-formed chunk run reports nothing. -/
theorem ws_run_chunk_nil {p : Parser} (hw : ParserWf p) :
    ws_run_chunk p [] = ([], .ok p) := by
  simp only [ws_run_chunk, ws_run_chunk_go, ws_parser_feed_nil hw]

/-- Under well-formedness any sufficient fuel computes the same chunk run:
every completed frame consumes at least one byte, so the canonical fuel
`data.length + 1` never runs out. -/
theorem ws_run_chunk_fuel : ∀ (f : Nat) (p : Parser) (data : List Nat), ParserWf p →
    data.length < f → ws_run_chunk_go f p data = ws_run_chunk p data := by
  intro f
  induction f using Nat.strong_induction_on with
  | _ f ih =>
    intro p data hw hf
    cases f with
    | zero => omega
    | succ f2 =>
      simp only [ws_run_chunk]
      cases hfd : ws_parser_feed p data with
      | needMore c v q => simp only [ws_run_chunk_go, hfd]
      | err e c q => simp only [ws_run_chunk_go, hfd]
      | frame c fr q =>
        have hdne : data ≠ [] := by
          intro hnil
          subst hnil
          rw [ws_parser_feed_nil hw] at hfd
          simp at hfd
        have hc1 : 1 ≤ c := ws_parser_feed_frame_pos hw hdne hfd
        have hcle : c ≤ data.length := ws_parser_feed_frame_le hfd
        have hwq : ParserWf q := ws_parser_feed_frame_wf hfd
        have hdl : (data.drop c).length = data.length - c := List.length_drop _ _
        have hlen : 1 ≤ data.length := by
          cases data with
          | nil => exact absurd rfl hdne
          | cons x xs => simp
        simp only [ws_run_chunk_go, hfd]
        rw [ih f2 (by omega) q (data.drop c) hwq (by omega)]
        rw [ih data.length (by omega) q (data.drop c) hwq (by omega)]

/-- One-step recurrence of the chunk run, with the canonical fuel restored
in the recursive call. -/
theorem ws_run_chunk_step (p : Parser) (data : List Nat) (hw : ParserWf p) :
    ws_run_chunk p data =
      match ws_parser_feed p data with
      | .needMore _ _ q => ([], .ok q)
      | .err e _ q => ([.failure e], .fail e q)
      | .frame c fr q =>
        (.frame fr.type fr.isFinal fr.payload :: (ws_run_chunk q (data.drop c)).1,
          (ws_run_chunk q (data.drop c)).2) := by
  cases hfd : ws_parser_feed p data with
  | needMore c v q =>
    conv_lhs => rw [ws_run_chunk]
    simp only [ws_run_chunk_go, hfd]
  | err e c q =>
    conv_lhs => rw [ws_run_chunk]
    simp only [ws_run_chunk_go, hfd]
  | frame c fr q =>
    have hdne : data ≠ [] := by
      intro hnil
      subst hnil
      rw [ws_parser_feed_nil hw] at hfd
      simp at hfd
    have hc1 : 1 ≤ c := ws_parser_feed_frame_pos hw hdne hfd
    have hwq : ParserWf q := ws_parser_feed_frame_wf hfd
    have hlen : 1 ≤ data.length := by
      cases data with
      | nil => exact absurd rfl hdne
      | cons x xs => simp
    conv_lhs => rw [ws_run_chunk]
    simp only [ws_run_chunk_go, hfd]
    rw [ws_run_chunk_fuel data.length q (data.drop c) hwq (by simp only [List.length_drop]; omega)]

theorem ws_join_cons (c : List Nat) (cs : List (List Nat)) :
    (c :: cs).join = c ++ cs.join := rfl

/-- Unrolled version of `ws_run_chunk_append_ok`, inducting on a bound for
the chunk length. -/
theorem ws_run_chunk_append_ok_aux : ∀ (n : Nat) (a : List Nat) (p : Parser)
    (evs : List Event) (p' : Parser), a.length ≤ n → ParserWf p →
    ws_run_chunk p a = (evs, .ok p') → atBoundary p' = true → ∀ b : List Nat,
    ws_run_chunk p (a ++ b) = (evs ++ (ws_run_chunk p' b).1, (ws_run_chunk p' b).2) := by
  intro n
  induction n with
  | zero =>
    intro a p evs p' hlen hw hr hb b
    have ha : a = [] := List.length_eq_zero.mp (Nat.le_zero.mp hlen)
    subst ha
    rw [ws_run_chunk_nil hw] at hr
    simp only [Prod.mk.injEq, ChunkEnd.ok.injEq] at hr
    obtain ⟨h1, h2⟩ := hr
    subst h1; subst h2
    simp only [List.nil_append]
  | succ n ih =>
    intro a p evs p' hlen hw hr hb b
    cases a with
    | nil =>
      rw [ws_run_chunk_nil hw] at hr
      simp only [Prod.mk.injEq, ChunkEnd.ok.injEq] at hr
      obtain ⟨h1, h2⟩ := hr
      subst h1; subst h2
      simp only [List.nil_append]
    | cons x xs =>
      cases hfd : ws_parser_feed p (x :: xs) with
      | needMore c v q =>
        rw [ws_run_chunk_step p (x :: xs) hw] at hr
        simp only [hfd, Prod.mk.injEq, ChunkEnd.ok.injEq] at hr
        obtain ⟨h1, h2⟩ := hr
        subst h1; subst h2
        obtain ⟨hnil, -⟩ := ws_parser_feed_needMore_boundary hw hfd hb
        simp at hnil
      | err e c q =>
        rw [ws_run_chunk_step p (x :: xs) hw] at hr
        simp [hfd] at hr
      | frame c fr q =>
        have hdne : (x :: xs : List Nat) ≠ [] := by simp
        have hc1 : 1 ≤ c := ws_parser_feed_frame_pos hw hdne hfd
        have hcle : c ≤ (x :: xs : List Nat).length := ws_parser_feed_frame_le hfd
        have hwq : ParserWf q := ws_parser_feed_frame_wf hfd
        rw [ws_run_chunk_step p (x :: xs) hw] at hr
        simp only [hfd, Prod.mk.injEq] at hr
        obtain ⟨h1, h2⟩ := hr
        have hrc : ws_run_chunk q ((x :: xs).drop c) = ((ws_run_chunk q ((x :: xs).drop c)).1, ChunkEnd.ok p') := by
          rw [← h2]
        have hlen2 : ((x :: xs).drop c).length ≤ n := by
          simp only [List.length_drop, List.length_cons] at hlen hcle ⊢
          omega
        have hih := ih ((x :: xs).drop c) q ((ws_run_chunk q ((x :: xs).drop c)).1) p' hlen2 hwq hrc hb b
        have hfd2 := ws_parser_feed_append_frame hfd b
        rw [ws_run_chunk_step p (x :: xs ++ b) hw]
        simp only [hfd2]
        rw [List.drop_append_of_le_length hcle]
        rw [hih]
        rw [← h1]
        simp

/-- A chunk run that halts waiting at a frame boundary, followed by more
input, is the concatenation of the two runs. -/
theorem ws_run_chunk_append_ok (a : List Nat) (p : Parser) (evs : List Event)
    (p' : Parser) (hw : ParserWf p) (hr : ws_run_chunk p a = (evs, .ok p'))
    (hb : atBoundary p' = true) (b : List Nat) :
    ws_run_chunk p (a ++ b) = (evs ++ (ws_run_chunk p' b).1, (ws_run_chunk p' b).2) :=
  ws_run_chunk_append_ok_aux a.length a p evs p' le_rfl hw hr hb b

/-- Unrolled version of `ws_run_chunk_append_fail`. -/
theorem ws_run_chunk_append_fail_aux : ∀ (n : Nat) (a : List Nat) (p : Parser)
    (evs : List Event) (e : PError) (pE : Parser), a.length ≤ n → ParserWf p →
    ws_run_chunk p a = (evs, .fail e pE) → ∀ b : List Nat,
    ws_run_chunk p (a ++ b) = (evs, .fail e pE) := by
  intro n
  induction n with
  | zero =>
    intro a p evs e pE hlen hw hr b
    have ha : a = [] := List.length_eq_zero.mp (Nat.le_zero.mp hlen)
    subst ha
    rw [ws_run_chunk_nil hw] at hr
    simp at hr
  | succ n ih =>
    intro a p evs e pE hlen hw hr b
    cases a with
    | nil =>
      rw [ws_run_chunk_nil hw] at hr
      simp at hr
    | cons x xs =>
      cases hfd : ws_parser_feed p (x :: xs) with
      | needMore c v q =>
        rw [ws_run_chunk_step p (x :: xs) hw] at hr
        simp [hfd] at hr
      | err e2 c q =>
        rw [ws_run_chunk_step p (x :: xs) hw] at hr
        simp only [hfd, Prod.mk.injEq, ChunkEnd.fail.injEq] at hr
        obtain ⟨h1, h2, h3⟩ := hr
        subst h1; subst h2; subst h3
        have hfd2 := ws_parser_feed_append_err hfd b
        rw [ws_run_chunk_step p (x :: xs ++ b) hw]
        simp only [hfd2]
      | frame c fr q =>
        have hdne : (x :: xs : List Nat) ≠ [] := by simp
        have hc1 : 1 ≤ c := ws_parser_feed_frame_pos hw hdne hfd
        have hcle : c ≤ (x :: xs : List Nat).length := ws_parser_feed_frame_le hfd
        have hwq : ParserWf q := ws_parser_feed_frame_wf hfd
        rw [ws_run_chunk_step p (x :: xs) hw] at hr
        simp only [hfd, Prod.mk.injEq] at hr
        obtain ⟨h1, h2⟩ := hr
        have hrc : ws_run_chunk q ((x :: xs).drop c) = ((ws_run_chunk q ((x :: xs).drop c)).1, ChunkEnd.fail e pE) := by
          rw [← h2]
        have hlen2 : ((x :: xs).drop c).length ≤ n := by
          simp only [List.length_drop, List.length_cons] at hlen hcle ⊢
          omega
        have hih := ih ((x :: xs).drop c) q ((ws_run_chunk q ((x :: xs).drop c)).1) e pE hlen2 hwq hrc b
        have hfd2 := ws_parser_feed_append_frame hfd b
        rw [ws_run_chunk_step p (x :: xs ++ b) hw]
        simp only [hfd2]
        rw [List.drop_append_of_le_length hcle]
        rw [hih]
        rw [← h1]

/-- A chunk run that hit a parse error ignores any appended input: the
events and the terminal error are unchanged. -/
theorem ws_run_chunk_append_fail (a : List Nat) (p : Parser) (evs : List Event)
    (e : PError) (pE : Parser) (hw : ParserWf p)
    (hr : ws_run_chunk p a = (evs, .fail e pE)) (b : List Nat) :
    ws_run_chunk p (a ++ b) = (evs, .fail e pE) :=
  ws_run_chunk_append_fail_aux a.length a p evs e pE le_rfl hw hr b

/-- Unrolled version of `ws_run_chunk_ok_wf`. -/
theorem ws_run_chunk_ok_wf_aux : ∀ (n : Nat) (a : List Nat) (p : Parser)
    (evs : List Event) (p' : Parser), a.length ≤ n → ParserWf p →
    ws_run_chunk p a = (evs, .ok p') → ParserWf p' := by
  intro n
  induction n with
  | zero =>
    intro a p evs p' hlen hw hr
    have ha : a = [] := List.length_eq_zero.mp (Nat.le_zero.mp hlen)
    subst ha
    rw [ws_run_chunk_nil hw] at hr
    simp only [Prod.mk.injEq, ChunkEnd.ok.injEq] at hr
    exact hr.2 ▸ hw
  | succ n ih =>
    intro a p evs p' hlen hw hr
    cases a with
    | nil =>
      rw [ws_run_chunk_nil hw] at hr
      simp only [Prod.mk.injEq, ChunkEnd.ok.injEq] at hr
      exact hr.2 ▸ hw
    | cons x xs =>
      cases hfd : ws_parser_feed p (x :: xs) with
      | needMore c v q =>
        rw [ws_run_chunk_step p (x :: xs) hw] at hr
        simp only [hfd, Prod.mk.injEq, ChunkEnd.ok.injEq] at hr
        exact hr.2 ▸ ws_parser_feed_needMore_wf hw hfd
      | err e c q =>
        rw [ws_run_chunk_step p (x :: xs) hw] at hr
        simp [hfd] at hr
      | frame c fr q =>
        have hdne : (x :: xs : List Nat) ≠ [] := by simp
        have hc1 : 1 ≤ c := ws_parser_feed_frame_pos hw hdne hfd
        have hcle : c ≤ (x :: xs : List Nat).length := ws_parser_feed_frame_le hfd
        have hwq : ParserWf q := ws_parser_feed_frame_wf hfd
        rw [ws_run_chunk_step p (x :: xs) hw] at hr
        simp only [hfd, Prod.mk.injEq] at hr
        obtain ⟨h1, h2⟩ := hr
        have hrc : ws_run_chunk q ((x :: xs).drop c) = ((ws_run_chunk q ((x :: xs).drop c)).1, ChunkEnd.ok p') := by
          rw [← h2]
        have hlen2 : ((x :: xs).drop c).length ≤ n := by
          simp only [List.length_drop, List.length_cons] at hlen hcle ⊢
          omega
        exact ih ((x :: xs).drop c) q ((ws_run_chunk q ((x :: xs).drop c)).1) p' hlen2 hwq hrc

/-- Well-formedness survives a chunk run that ends waiting for input. -/
theorem ws_run_chunk_ok_wf {a : List Nat} {p : Parser} {evs : List Event}
    {p' : Parser} (hw : ParserWf p) (hr : ws_run_chunk p a = (evs, .ok p')) :
    ParserWf p' :=
  ws_run_chunk_ok_wf_aux a.length a p evs p' le_rfl hw hr

/-- Feeding one chunk through the chunk driver is the single chunk run. -/
theorem ws_run_chunks_single (p : Parser) (a : List Nat) :
    ws_run_chunks p [a] = (ws_run_chunk p a).1 := by
  rcases hr : ws_run_chunk p a with ⟨evs, en⟩
  cases en <;> simp [ws_run_chunks, hr]

/-- Main composition: over a frame-aligned chunking, the chunk-by-chunk run
emits exactly the events of running the concatenation. -/
theorem ws_run_chunks_join : ∀ (chunks : List (List Nat)) (p : Parser), ParserWf p →
    ws_aligned p chunks = true →
    ws_run_chunks p chunks = (ws_run_chunk p chunks.join).1 := by
  intro chunks
  induction chunks with
  | nil =>
    intro p hw hal
    simp only [ws_run_chunks]
    rw [show (([] : List (List Nat)).join) = ([] : List Nat) from rfl, ws_run_chunk_nil hw]
  | cons cfirst cs ih =>
    intro p hw hal
    rcases hr : ws_run_chunk p cfirst with ⟨evs, en⟩
    cases en with
    | ok q =>
      have hal2 : atBoundary q = true ∧ ws_aligned q cs = true := by
        simp only [ws_aligned, hr, Bool.and_eq_true] at hal
        exact hal
      have hwq : ParserWf q := ws_run_chunk_ok_wf hw hr
      have happ := ws_run_chunk_append_ok cfirst p evs q hw hr hal2.1 cs.join
      simp only [ws_run_chunks, hr]
      rw [ws_join_cons, happ]
      rw [ih q hwq hal2.2]
    | fail e pE =>
      simp only [ws_run_chunks, hr]
      have happ := ws_run_chunk_append_fail cfirst p evs e pE hw hr cs.join
      rw [ws_join_cons, happ]

/-- C2: chunked feeding matches whole-buffer feeding **for frame-aligned
chunkings**: starting from a freshly initialized parser, if after every chunk
(short of a terminal error) the parser sits exactly between frames, then
driving `ws_parser_feed` chunk by chunk emits the same sequence of completed
frames (same opcode, FIN and byte-exact payload) and errors as feeding the
whole concatenated byte sequence in one call. -/
theorem C2_chunked_aligned_equivalence (maxF : Nat) (chunks : List (List Nat))
    (hal : ws_aligned (ws_parser_init maxF) chunks = true) :
    ws_run_chunks (ws_parser_init maxF) chunks =
      ws_run_chunks (ws_parser_init maxF) [chunks.join] := by
  rw [ws_run_chunks_single]
  exact ws_run_chunks_join chunks _ (ws_parser_init_wf maxF) hal

theorem C2_chunked_aligned_equivalence_witness :
    ws_aligned (ws_parser_init 0) [[0x82, 0x03, 0x01, 0x02, 0x03], [0x89, 0x00]] = true ∧
      ws_run_chunks (ws_parser_init 0) [[0x82, 0x03, 0x01, 0x02, 0x03], [0x89, 0x00]] =
        ws_run_chunks (ws_parser_init 0)
          [([[0x82, 0x03, 0x01, 0x02, 0x03], [0x89, 0x00]] : List (List Nat)).join] :=
  ⟨by decide, C2_chunked_aligned_equivalence 0 _ (by decide)⟩

/-- Counterexample to unrestricted C2: splitting a 3-byte BINARY frame as
`[0x82 0x03 0x01] / [0x02 0x03]` reports the frame with payload `[2, 3]`
(the view of the completing call), while the whole buffer reports payload
`[1, 2, 3]` — the per-frame payload is not byte-exact across chunkings. -/
theorem C2_unaligned_chunking_differs :
    ws_run_chunks (ws_parser_init 0) [[0x82, 0x03, 0x01], [0x02, 0x03]] ≠
      ws_run_chunks (ws_parser_init 0) [[0x82, 0x03, 0x01, 0x02, 0x03]] := by
  decide

/-- 32-bit rotate-left (`ROTL32` of `src/internal/sha1.c`). -/
def rotl32 (x n : Nat) : Nat := ((x <<< n) ||| (x >>> (32 - n))) &&& 0xFFFFFFFF

/-- The message schedule `w[0..79]` of `ws_sha1_transform`: 16 big-endian
words from the block, then 64 rotated xors. -/
def sha1_ws (block : List Nat) : List Nat :=
  let w16 := (List.range 16).map (fun i =>
    (nth block (4 * i) <<< 24) ||| (nth block (4 * i + 1) <<< 16) |||
      (nth block (4 * i + 2) <<< 8) ||| nth block (4 * i + 3))
  (List.range 64).foldl (fun w _ =>
    w ++ [rotl32 (nth w (w.length - 3) ^^^ nth w (w.length - 8) ^^^
      nth w (w.length - 14) ^^^ nth w (w.length - 16)) 1]) w16

/-- One round of the 80-round compression loop of `ws_sha1_transform`. -/
def sha1_round (w : List Nat) (st : Nat × Nat × Nat × Nat × Nat) (i : Nat) :
    Nat × Nat × Nat × Nat × Nat :=
  let a := st.1
  let b := st.2.1
  let c := st.2.2.1
  let d := st.2.2.2.1
  let e := st.2.2.2.2
  let f := if i < 20 then (b &&& c) ||| ((b ^^^ 0xFFFFFFFF) &&& d)
    else if i < 40 then b ^^^ c ^^^ d
    else if i < 60 then (b &&& c) ||| (b &&& d) ||| (c &&& d)
    else b ^^^ c ^^^ d
  let k := if i < 20 then 0x5A827999
    else if i < 40 then 0x6ED9EBA1
    else if i < 60 then 0x8F1BBCDC
    else 0xCA62C1D6
  let temp := (rotl32 a 5 + f + e + k + nth w i) &&& 0xFFFFFFFF
  (temp, a, rotl32 b 30, c, d)

/-- `ws_sha1_transform`: compress one 64-byte block into the 5-word state. -/
def ws_sha1_transform (state : List Nat) (block : List Nat) : List Nat :=
  let w := sha1_ws block
  let r := (List.range 80).foldl (sha1_round w)
    (nth state 0, nth state 1, nth state 2, nth state 3, nth state 4)
  [(nth state 0 + r.1) &&& 0xFFFFFFFF, (nth state 1 + r.2.1) &&& 0xFFFFFFFF,
   (nth state 2 + r.2.2.1) &&& 0xFFFFFFFF, (nth state 3 + r.2.2.2.1) &&& 0xFFFFFFFF,
   (nth state 4 + r.2.2.2.2) &&& 0xFFFFFFFF]

/-- `ws_sha1_ctx_t`: 5-word state, bit count, and the pending (< 64) bytes of
`buffer` (the C buffer's meaningful prefix `buffer[0..idx)`). -/
structure Sha1Ctx where
  state : List Nat
  count : Nat
  buffer : List Nat
  deriving DecidableEq, Repr

/-- `ws_sha1_init`. -/
def ws_sha1_init : Sha1Ctx :=
  ⟨[0x67452301, 0xEFCDAB89, 0x98BADCFE, 0x10325476, 0xC3D2E1F0], 0, []⟩

/-- The `while (len >= 64) ws_sha1_transform(...)` loop of `ws_sha1_update`:
consume full 64-byte blocks, return the final state and the remainder.
`fuel` only bounds the recursion (each step consumes 64 bytes, so the byte
count is always enough). -/
def sha1_blocks_go (fuel : Nat) (state : List Nat) (bytes : List Nat) :
    List Nat × List Nat :=
  match fuel with
  | 0 => (state, bytes)
  | fuel + 1 =>
    if 64 ≤ bytes.length then
      sha1_blocks_go fuel (ws_sha1_transform state (bytes.take 64)) (bytes.drop 64)
    else (state, bytes)

/-- `ws_sha1_update`: the C routine fills `buffer` to 64 bytes, transforms,
transforms the remaining full blocks in place, and buffers the tail — i.e. it
consumes full 64-byte blocks of `buffer ++ data` and keeps the remainder. -/
def ws_sha1_update (ctx : Sha1Ctx) (data : List Nat) : Sha1Ctx :=
  let allb := ctx.buffer ++ data
  let r := sha1_blocks_go allb.length ctx.state allb
  { state := r.1, count := (ctx.count + (data.length <<< 3)) % 2 ^ 64, buffer := r.2 }

/-- The big-endian digest serialization at the end of `ws_sha1_final`. -/
def ws_sha1_digest_bytes (s : List Nat) : List Nat :=
  [(nth s 0 >>> 24) &&& 0xFF, (nth s 0 >>> 16) &&& 0xFF, (nth s 0 >>> 8) &&& 0xFF, nth s 0 &&& 0xFF,
   (nth s 1 >>> 24) &&& 0xFF, (nth s 1 >>> 16) &&& 0xFF, (nth s 1 >>> 8) &&& 0xFF, nth s 1 &&& 0xFF,
   (nth s 2 >>> 24) &&& 0xFF, (nth s 2 >>> 16) &&& 0xFF, (nth s 2 >>> 8) &&& 0xFF, nth s 2 &&& 0xFF,
   (nth s 3 >>> 24) &&& 0xFF, (nth s 3 >>> 16) &&& 0xFF, (nth s 3 >>> 8) &&& 0xFF, nth s 3 &&& 0xFF,
   (nth s 4 >>> 24) &&& 0xFF, (nth s 4 >>> 16) &&& 0xFF, (nth s 4 >>> 8) &&& 0xFF, nth s 4 &&& 0xFF]

/-- `ws_sha1_final`: captures the length (computed before padding), appends
`0x80`, zero-pads until the byte count is 56 mod 64 (the while loop, one
zero per iteration), appends the 8-byte big-endian bit length, and serializes
the state. -/
def ws_sha1_final (ctx : Sha1Ctx) : List Nat :=
  let lenBe := (List.range 8).map (fun i => (ctx.count >>> ((7 - i) * 8)) &&& 0xFF)
  let ctx1 := ws_sha1_update ctx [0x80]
  let idx1 := (ctx1.count >>> 3) &&& 63
  let z := (120 - idx1) % 64
  let ctx2 := ws_sha1_update ctx1 (List.replicate z 0)
  let ctx3 := ws_sha1_update ctx2 lenBe
  ws_sha1_digest_bytes ctx3.state

/-- ASCII bytes of a string literal. -/
def strBytes (s : String) : List Nat := s.toList.map Char.toNat

/-- The base64 alphabet `k_b64` of `src/internal/base64.c`. -/
def k_b64 : List Nat :=
  strBytes "ABCDEFGHIJKLMNOPQRSTUVWXYZabcdefghijklmnopqrstuvwxyz0123456789+/"

/-- `ws_base64_encode` (bytes of the output, `include_nul` dropped): 3-byte
groups to 4 alphabet characters, with `=` (0x3D) padding for a 1- or 2-byte
tail. -/
def ws_base64_encode : List Nat → List Nat
  | a :: b :: c :: rest =>
    let v := (a <<< 16) ||| (b <<< 8) ||| c
    nth k_b64 ((v >>> 18) &&& 63) :: nth k_b64 ((v >>> 12) &&& 63) ::
      nth k_b64 ((v >>> 6) &&& 63) :: nth k_b64 (v &&& 63) :: ws_base64_encode rest
  | [a] =>
    let v := a <<< 16
    [nth k_b64 ((v >>> 18) &&& 63), nth k_b64 ((v >>> 12) &&& 63), 0x3D, 0x3D]
  | [a, b] =>
    let v := (a <<< 16) ||| (b <<< 8)
    [nth k_b64 ((v >>> 18) &&& 63), nth k_b64 ((v >>> 12) &&& 63),
      nth k_b64 ((v >>> 6) &&& 63), 0x3D]
  | [] => []

/-- The handshake GUID `WS_GUID`. -/
def WS_GUID_BYTES : List Nat := strBytes "258EAFA5-E914-47DA-95CA-C5AB0DC85B11"

/-- `ws_compute_accept` (lines 12-26 of the handshake unit):
`base64(SHA1(key ++ WS_GUID))`. -/
def ws_compute_accept (key : List Nat) : List Nat :=
  ws_base64_encode (ws_sha1_final (ws_sha1_update ws_sha1_init (key ++ WS_GUID_BYTES)))

theorem ws_sha1_final_length (ctx : Sha1Ctx) : (ws_sha1_final ctx).length = 20 := by
  simp [ws_sha1_final, ws_sha1_digest_bytes]

theorem ws_base64_encode_length : ∀ l : List Nat,
    (ws_base64_encode l).length = ((l.length + 2) / 3) * 4
  | [] => rfl
  | [a] => by simp [ws_base64_encode]
  | [a, b] => by simp [ws_base64_encode]
  | a :: b :: c :: rest => by
    simp only [ws_base64_encode, List.length_cons]
    rw [ws_base64_encode_length rest]
    omega

/-- C6: for every key of at most 24 bytes, `ws_compute_accept` is the
28-character standard base64 encoding of the SHA-1 digest of the key
concatenated with the GUID, and the RFC 6455 known answer holds. -/
theorem C6_compute_accept (key : List Nat) (hlen : key.length ≤ 24) :
    ws_compute_accept key =
      ws_base64_encode (ws_sha1_final (ws_sha1_update ws_sha1_init (key ++ WS_GUID_BYTES))) ∧
    (ws_compute_accept key).length = 28 ∧
    ws_compute_accept (strBytes "dGhlIHNhbXBsZSBub25jZQ==") =
      strBytes "s3pPLMBiTxaQ9kYGzzhZRbK+xOo=" := by
  refine ⟨rfl, ?_, ?_⟩
  · rw [ws_compute_accept, ws_base64_encode_length, ws_sha1_final_length]
  · decide

theorem C6_compute_accept_witness :
    (strBytes "dGhlIHNhbXBsZSBub25jZQ==").length ≤ 24 ∧
      (ws_compute_accept (strBytes "dGhlIHNhbXBsZSBub25jZQ==")).length = 28 :=
  ⟨by decide, (C6_compute_accept (strBytes "dGhlIHNhbXBsZSBub25jZQ==") (by decide)).2.1⟩

/-- Enum values from `include/wibesocket/wibesocket.h`. -/
def WIBESOCKET_STATE_OPEN : Nat := 2

def WIBESOCKET_STATE_CLOSED : Nat := 4

def WIBESOCKET_ERROR_PROTOCOL : Nat := 5

def WIBESOCKET_ERROR_TIMEOUT : Nat := 6

def WIBESOCKET_ERROR_CLOSED : Nat := 7

def WIBESOCKET_ERROR_NOT_READY : Nat := 9

/-- Opcodes from `src/internal/frame.h`. -/
def WS_OPCODE_PING : Nat := 0x9

def WS_OPCODE_PONG : Nat := 0xA

/-- The engine connection (`struct wibesocket_conn` of the event-loop unit):
the fields read or written by `wibesocket_recv`, `wibesocket_retain_payload`
and `wibesocket_release_payload`.  `recvBuf` is `recv_buf[0..recv_size)`. -/
structure Conn where
  state : Nat
  lastError : Nat
  parser : Parser
  recvBuf : List Nat
  pendingConsume : Nat
  pinnedLen : Nat
  pinnedRefcnt : Nat
  deriving DecidableEq, Repr

/-- Outcome of one `wibesocket_recv` call: the returned error code, the
frames handed to `send_frame` during the call (opcode and payload), and the
connection afterwards. -/
structure RecvResult where
  retval : Nat
  sent : List (Nat × List Nat)
  conn : Conn
  deriving DecidableEq, Repr

/-- `wibesocket_recv` (engine lines 225-265) with the socket read abstracted:
`incoming` is what `recv(2)` returns this call (empty models the peer
closing; the timeout/network branches are outside this model).  The PING
branch echoes via `wibesocket_send_ping`, i.e. `send_frame` with
`WS_OPCODE_PING`; the CLOSE branch answers `wibesocket_send_close` (code
1000) and closes. -/
def wibesocket_recv (c : Conn) (incoming : List Nat) : RecvResult :=
  if c.state ≠ WIBESOCKET_STATE_OPEN then ⟨WIBESOCKET_ERROR_NOT_READY, [], c⟩
  else if 0 < c.pinnedRefcnt then ⟨WIBESOCKET_ERROR_NOT_READY, [], c⟩
  else if incoming.length = 0 then
    ⟨WIBESOCKET_ERROR_CLOSED, [], { c with state := WIBESOCKET_STATE_CLOSED }⟩
  else
    let buf := c.recvBuf ++ incoming
    match ws_parser_feed c.parser buf with
    | .needMore _ _ p2 => ⟨WIBESOCKET_ERROR_NOT_READY, [], { c with recvBuf := buf, parser := p2 }⟩
    | .err _ _ p2 =>
      ⟨WIBESOCKET_ERROR_PROTOCOL, [], { c with recvBuf := buf, parser := p2, lastError := WIBESOCKET_ERROR_PROTOCOL }⟩
    | .frame consumed fr p2 =>
      let c2 : Conn := { c with recvBuf := buf, parser := p2, pendingConsume := consumed }
      if fr.type = WS_OPCODE_PING then
        ⟨WIBESOCKET_ERROR_NOT_READY, [(WS_OPCODE_PING, fr.payload)], c2⟩
      else if fr.type = 0x8 then
        ⟨WIBESOCKET_ERROR_CLOSED, [(0x8, [0x03, 0xE8])], { c2 with state := WIBESOCKET_STATE_CLOSED }⟩
      else
        ⟨0, [], { c2 with pinnedLen := fr.payload.length, pinnedRefcnt := 1 }⟩

/-- `wibesocket_retain_payload` (engine lines 307-311). -/
def wibesocket_retain_payload (c : Conn) : Conn :=
  if 0 < c.pinnedRefcnt then { c with pinnedRefcnt := c.pinnedRefcnt + 1 } else c

/-- `wibesocket_release_payload` (engine lines 313-327): decrement if
pinned; at refcount zero slide the pending consumed prefix out of the recv
buffer and clear the pin. -/
def wibesocket_release_payload (c : Conn) : Conn :=
  let c1 := if 0 < c.pinnedRefcnt then { c with pinnedRefcnt := c.pinnedRefcnt - 1 } else c
  if c1.pinnedRefcnt = 0 then
    if 0 < c1.pendingConsume ∧ c1.pendingConsume ≤ c1.recvBuf.length then
      { c1 with recvBuf := c1.recvBuf.drop c1.pendingConsume, pendingConsume := 0, pinnedLen := 0 }
    else { c1 with pinnedLen := 0 }
  else c1

/-- `k_error_strings` (engine lines 289-300). -/
def k_error_strings : List String :=
  ["ok", "invalid args", "memory", "network", "handshake", "protocol",
   "timeout", "closed", "buffer full", "not ready"]

/-- `wibesocket_error_string` (engine lines 302-305). -/
def wibesocket_error_string (error : Nat) : String :=
  if error < 10 then k_error_strings.getD error "unknown" else "unknown"

/-- A lowercase letter or a space (the label character set). -/
def isLowerOrSpace (ch : Nat) : Bool :=
  (97 ≤ ch && ch ≤ 122) || ch == 32

/-- Feeding one whole small PING frame to a fresh parser reports the frame. -/
theorem ws_parser_feed_ping_run (payload : List Nat) (hL : payload.length ≤ 125) :
    ws_parser_feed (ws_parser_init 0) (0x89 :: payload.length :: payload) =
      .frame (2 + payload.length) ⟨9, payload, true⟩ ⟨2 ^ 20, [], 2, 0, false, 0⟩ := by
  rw [ws_parser_feed_small (ws_parser_init 0) 0x89 payload rfl rfl rfl hL (by decide)
    (by decide) (by decide) (fun _ => by decide) (by simp [ws_parser_init]; omega)]
  simp [ws_parser_complete, ws_frag_track, ws_parser_init,
    (show (0x89 &&& 0x0F : Nat) = 9 from rfl), (show (0x89 &&& 0x80 : Nat) = 128 from rfl),
    (show (9 &&& 8 : Nat) = 8 from rfl)]

/-- C7 (actual behavior): on an OPEN, unpinned connection whose buffer is
empty, receiving a complete PING frame makes the engine send a frame with
opcode `WS_OPCODE_PING` (0x9) — not PONG (0xA) — carrying the PING payload,
and return the not-ready error. -/
theorem C7_ping_echoed_with_ping_opcode (c : Conn) (payload : List Nat)
    (hst : c.state = WIBESOCKET_STATE_OPEN) (hpin : c.pinnedRefcnt = 0)
    (hbuf : c.recvBuf = []) (hp : c.parser = ws_parser_init 0)
    (hlen : payload.length ≤ 125) :
    (wibesocket_recv c (0x89 :: payload.length :: payload)).retval =
        WIBESOCKET_ERROR_NOT_READY ∧
      (wibesocket_recv c (0x89 :: payload.length :: payload)).sent =
        [(WS_OPCODE_PING, payload)] ∧
      WS_OPCODE_PING ≠ WS_OPCODE_PONG := by
  have hfeed := ws_parser_feed_ping_run payload hlen
  simp only [wibesocket_recv, hst, hpin, hbuf, hp, List.nil_append, hfeed]
  refine ⟨?_, ?_, by decide⟩ <;>
    simp [WS_OPCODE_PING, WIBESOCKET_STATE_OPEN]

theorem C7_ping_echoed_with_ping_opcode_witness :
    ((⟨2, 0, ws_parser_init 0, [], 0, 0, 0⟩ : Conn).state = WIBESOCKET_STATE_OPEN) ∧
      (wibesocket_recv ⟨2, 0, ws_parser_init 0, [], 0, 0, 0⟩ [0x89, 0x01, 0x41]).sent =
        [(WS_OPCODE_PING, [0x41])] :=
  ⟨by decide,
   (C7_ping_echoed_with_ping_opcode ⟨2, 0, ws_parser_init 0, [], 0, 0, 0⟩ [0x41]
     rfl rfl rfl rfl (by decide)).2.1⟩

/-- C8: while pinned, `wibesocket_recv` returns not-ready and changes
nothing; `wibesocket_release_payload` decrements the refcount and compacts
the buffer exactly when it reaches zero (dropping the pending consumed
prefix); a release from refcount ≥ 2 and a retain never touch the buffer;
and `wibesocket_recv` itself only ever appends to the buffer. -/
theorem C8_pin_and_release (c : Conn) (incoming : List Nat) :
    (0 < c.pinnedRefcnt →
      (wibesocket_recv c incoming).retval = WIBESOCKET_ERROR_NOT_READY ∧
        (wibesocket_recv c incoming).conn = c) ∧
    (1 ≤ c.pinnedRefcnt →
      (wibesocket_release_payload c).pinnedRefcnt = c.pinnedRefcnt - 1) ∧
    (c.pinnedRefcnt = 1 → 0 < c.pendingConsume → c.pendingConsume ≤ c.recvBuf.length →
      (wibesocket_release_payload c).recvBuf = c.recvBuf.drop c.pendingConsume ∧
        (wibesocket_release_payload c).pendingConsume = 0) ∧
    (2 ≤ c.pinnedRefcnt →
      (wibesocket_release_payload c).recvBuf = c.recvBuf ∧
        (wibesocket_release_payload c).pendingConsume = c.pendingConsume) ∧
    (wibesocket_retain_payload c).recvBuf = c.recvBuf ∧
    (wibesocket_retain_payload c).pendingConsume = c.pendingConsume ∧
    (∃ t, (wibesocket_recv c incoming).conn.recvBuf = c.recvBuf ++ t) := by
  refine ⟨?_, ?_, ?_, ?_, ?_, ?_, ?_⟩
  · intro hpin
    by_cases hs : c.state ≠ WIBESOCKET_STATE_OPEN
    · simp [wibesocket_recv, hs]
    · simp [wibesocket_recv, hs, hpin]
  · intro hpin
    simp only [wibesocket_release_payload]
    rw [if_pos (show 0 < c.pinnedRefcnt by omega)]
    split_ifs <;> rfl
  · intro hpin hpc hle
    simp only [wibesocket_release_payload]
    rw [if_pos (show 0 < c.pinnedRefcnt by omega)]
    simp [hpin, hpc, hle]
  · intro hpin
    simp only [wibesocket_release_payload]
    rw [if_pos (show 0 < c.pinnedRefcnt by omega)]
    rw [if_neg (show ¬ ({ c with pinnedRefcnt := c.pinnedRefcnt - 1 } : Conn).pinnedRefcnt = 0 by simp; omega)]
    exact ⟨rfl, rfl⟩
  · simp only [wibesocket_retain_payload]
    split_ifs <;> rfl
  · simp only [wibesocket_retain_payload]
    split_ifs <;> rfl
  · simp only [wibesocket_recv]
    split_ifs
    · exact ⟨[], by simp⟩
    · exact ⟨[], by simp⟩
    · exact ⟨[], by simp⟩
    · cases hfd : ws_parser_feed c.parser (c.recvBuf ++ incoming) with
      | needMore a b p2 => exact ⟨incoming, by simp [hfd]⟩
      | err e a p2 => exact ⟨incoming, by simp [hfd]⟩
      | frame consumed fr p2 =>
        by_cases h9 : fr.type = WS_OPCODE_PING
        · exact ⟨incoming, by simp [hfd, h9]⟩
        · by_cases h8 : fr.type = 0x8
          · exact ⟨incoming, by simp [hfd, h9, h8, WS_OPCODE_PING]⟩
          · exact ⟨incoming, by simp [hfd, h9, h8]⟩

theorem C8_pin_and_release_witness :
    0 < (⟨2, 0, ws_parser_init 0, [1, 2, 3], 2, 3, 1⟩ : Conn).pinnedRefcnt ∧
      (wibesocket_recv ⟨2, 0, ws_parser_init 0, [1, 2, 3], 2, 3, 1⟩ [0x89]).retval =
        WIBESOCKET_ERROR_NOT_READY ∧
      (wibesocket_release_payload ⟨2, 0, ws_parser_init 0, [1, 2, 3], 2, 3, 1⟩).recvBuf = [3] :=
  ⟨by decide,
   ((C8_pin_and_release ⟨2, 0, ws_parser_init 0, [1, 2, 3], 2, 3, 1⟩ [0x89]).1 (by decide)).1,
   by
    have h := ((C8_pin_and_release ⟨2, 0, ws_parser_init 0, [1, 2, 3], 2, 3, 1⟩ [0x89]).2.2.1
      rfl (by decide) (by decide)).1
    rw [h]
    decide⟩

/-- C9: the engine's `wibesocket_error_string` returns short lower-case
labels — "protocol" for `WIBESOCKET_ERROR_PROTOCOL` (5) and "timeout" for
`WIBESOCKET_ERROR_TIMEOUT` (6) — and the fixed fallback "unknown" for every
value outside the 10-entry enum range. -/
theorem C9_error_strings :
    wibesocket_error_string WIBESOCKET_ERROR_PROTOCOL = "protocol" ∧
    wibesocket_error_string WIBESOCKET_ERROR_TIMEOUT = "timeout" ∧
    (∀ e : Nat, e < 10 →
      ((wibesocket_error_string e).toList.map Char.toNat).all isLowerOrSpace = true ∧
        (wibesocket_error_string e).length ≤ 12) ∧
    (∀ e : Nat, 10 ≤ e → wibesocket_error_string e = "unknown") := by
  refine ⟨by decide, by decide, by decide, ?_⟩
  intro e he
  simp [wibesocket_error_string, Nat.not_lt.mpr he]

theorem C9_error_strings_witness :
    (10 : Nat) ≤ 42 ∧ wibesocket_error_string 42 = "unknown" :=
  ⟨by decide, C9_error_strings.2.2.2 42 (by decide)⟩

/-- `advance_index` shared by both ring buffer variants. -/
def advance_index (idx n cap : Nat) : Nat :=
  if cap ≤ idx + n then idx + n - cap else idx + n

/-- `ws_ringbuf_t`, full-flag variant (`src/internal/ringbuf.c`): the byte
array is `buffer` (length `capacity`). -/
structure RingbufF where
  capacity : Nat
  buffer : List Nat
  head : Nat
  tail : Nat
  full : Bool
  deriving DecidableEq, Repr

/-- `ws_ringbuf_t`, count variant (the alternative implementation kept after
the separator of `src/internal/frame.h`). -/
structure RingbufC where
  capacity : Nat
  buffer : List Nat
  head : Nat
  tail : Nat
  count : Nat
  deriving DecidableEq, Repr

/-- `ws_ringbuf_init` (full-flag variant), with a zeroed backing array. -/
def ws_ringbuf_init_F (cap : Nat) : RingbufF :=
  ⟨cap, List.replicate cap 0, 0, 0, false⟩

/-- `ws_ringbuf_init` (count variant). -/
def ws_ringbuf_init_C (cap : Nat) : RingbufC :=
  ⟨cap, List.replicate cap 0, 0, 0, 0⟩

def ws_ringbuf_size_F (rb : RingbufF) : Nat :=
  if rb.full then rb.capacity
  else if rb.tail ≤ rb.head then rb.head - rb.tail
  else rb.capacity - (rb.tail - rb.head)

def ws_ringbuf_size_C (rb : RingbufC) : Nat := rb.count

def ws_ringbuf_available_F (rb : RingbufF) : Nat := rb.capacity - ws_ringbuf_size_F rb

def ws_ringbuf_available_C (rb : RingbufC) : Nat := rb.capacity - rb.count

def ws_ringbuf_is_empty_F (rb : RingbufF) : Bool := !rb.full && (rb.head == rb.tail)

def ws_ringbuf_is_empty_C (rb : RingbufC) : Bool := rb.count == 0

def ws_ringbuf_is_full_F (rb : RingbufF) : Bool := rb.full

def ws_ringbuf_is_full_C (rb : RingbufC) : Bool := rb.count == rb.capacity

/-- `ws_ringbuf_peek_read`: `some (offset, length)` of the contiguous
readable region, `none` for the NULL answer. -/
def ws_ringbuf_peek_read_F (rb : RingbufF) : Option (Nat × Nat) :=
  let readable := ws_ringbuf_size_F rb
  if readable = 0 then none
  else
    let t := if rb.full ∨ rb.tail < rb.head then
        (if rb.full then rb.capacity - rb.tail else rb.head - rb.tail)
      else rb.capacity - rb.tail
    some (rb.tail, if readable < t then readable else t)

def ws_ringbuf_peek_read_C (rb : RingbufC) : Option (Nat × Nat) :=
  let readable := rb.count
  if readable = 0 then none
  else
    let t := if rb.tail < rb.head then rb.head - rb.tail else rb.capacity - rb.tail
    some (rb.tail, if readable < t then readable else t)

/-- `ws_ringbuf_peek_write`: `some (offset, length)` of the contiguous free
region, `none` when full. -/
def ws_ringbuf_peek_write_F (rb : RingbufF) : Option (Nat × Nat) :=
  if rb.full then none
  else
    let avail := ws_ringbuf_available_F rb
    let t := if rb.head < rb.tail then rb.tail - rb.head else rb.capacity - rb.head
    some (rb.head, if avail < t then avail else t)

def ws_ringbuf_peek_write_C (rb : RingbufC) : Option (Nat × Nat) :=
  if rb.count = rb.capacity then none
  else
    let avail := rb.capacity - rb.count
    let t := if rb.head < rb.tail then rb.tail - rb.head else rb.capacity - rb.head
    some (rb.head, if avail < t then avail else t)

def ws_ringbuf_consume_F (rb : RingbufF) (nbytes : Nat) : RingbufF :=
  let readable := ws_ringbuf_size_F rb
  let n := if readable < nbytes then readable else nbytes
  { rb with tail := advance_index rb.tail n rb.capacity, full := false }

def ws_ringbuf_consume_C (rb : RingbufC) (nbytes : Nat) : RingbufC :=
  if nbytes = 0 ∨ rb.capacity = 0 then rb
  else
    let n := if rb.count < nbytes then rb.count else nbytes
    { rb with tail := advance_index rb.tail n rb.capacity, count := rb.count - n }

def ws_ringbuf_commit_F (rb : RingbufF) (nbytes : Nat) : RingbufF :=
  let space := ws_ringbuf_available_F rb
  let n := if space < nbytes then space else nbytes
  let h2 := advance_index rb.head n rb.capacity
  { rb with head := h2, full := if h2 = rb.tail then true else rb.full }

def ws_ringbuf_commit_C (rb : RingbufC) (nbytes : Nat) : RingbufC :=
  if nbytes = 0 ∨ rb.capacity = 0 then rb
  else
    let space := rb.capacity - rb.count
    let n := if space < nbytes then space else nbytes
    { rb with head := advance_index rb.head n rb.capacity, count := rb.count + n }

/-- `memcpy(buffer + off, data, data.length)`. -/
def listWrite (buf : List Nat) (off : Nat) (data : List Nat) : List Nat :=
  buf.take off ++ data ++ buf.drop (off + data.length)

/-- The `ws_ringbuf_write_copy` loop (full-flag variant), `fuel`-bounded:
each pass writes at least one byte, so `data.length + 1` is always enough. -/
def write_copy_F_go (fuel : Nat) (rb : RingbufF) (data : List Nat) (written : Nat) :
    RingbufF × Nat :=
  match fuel with
  | 0 => (rb, written)
  | fuel + 1 =>
    if data.length = 0 then (rb, written)
    else
      match ws_ringbuf_peek_write_F rb with
      | none => (rb, written)
      | some (off, space) =>
        if space = 0 then (rb, written)
        else
          let n := if data.length < space then data.length else space
          let rb2 := { rb with buffer := listWrite rb.buffer off (data.take n) }
          write_copy_F_go fuel (ws_ringbuf_commit_F rb2 n) (data.drop n) (written + n)

def ws_ringbuf_write_copy_F (rb : RingbufF) (data : List Nat) : RingbufF × Nat :=
  write_copy_F_go (data.length + 1) rb data 0

def write_copy_C_go (fuel : Nat) (rb : RingbufC) (data : List Nat) (written : Nat) :
    RingbufC × Nat :=
  match fuel with
  | 0 => (rb, written)
  | fuel + 1 =>
    if data.length = 0 then (rb, written)
    else
      match ws_ringbuf_peek_write_C rb with
      | none => (rb, written)
      | some (off, space) =>
        if space = 0 then (rb, written)
        else
          let n := if data.length < space then data.length else space
          let rb2 := { rb with buffer := listWrite rb.buffer off (data.take n) }
          write_copy_C_go fuel (ws_ringbuf_commit_C rb2 n) (data.drop n) (written + n)

def ws_ringbuf_write_copy_C (rb : RingbufC) (data : List Nat) : RingbufC × Nat :=
  write_copy_C_go (data.length + 1) rb data 0

/-- The `ws_ringbuf_read_copy` loop (full-flag variant), collecting the bytes
delivered to the reader. -/
def read_copy_F_go (fuel : Nat) (rb : RingbufF) (len : Nat) (out : List Nat) :
    RingbufF × List Nat :=
  match fuel with
  | 0 => (rb, out)
  | fuel + 1 =>
    if len = 0 then (rb, out)
    else
      match ws_ringbuf_peek_read_F rb with
      | none => (rb, out)
      | some (off, have2) =>
        if have2 = 0 then (rb, out)
        else
          let n := if len < have2 then len else have2
          read_copy_F_go fuel (ws_ringbuf_consume_F rb n) (len - n)
            (out ++ ((rb.buffer.drop off).take n))

def ws_ringbuf_read_copy_F (rb : RingbufF) (len : Nat) : RingbufF × List Nat :=
  read_copy_F_go (len + 1) rb len []

def read_copy_C_go (fuel : Nat) (rb : RingbufC) (len : Nat) (out : List Nat) :
    RingbufC × List Nat :=
  match fuel with
  | 0 => (rb, out)
  | fuel + 1 =>
    if len = 0 then (rb, out)
    else
      match ws_ringbuf_peek_read_C rb with
      | none => (rb, out)
      | some (off, have2) =>
        if have2 = 0 then (rb, out)
        else
          let n := if len < have2 then len else have2
          read_copy_C_go fuel (ws_ringbuf_consume_C rb n) (len - n)
            (out ++ ((rb.buffer.drop off).take n))

def ws_ringbuf_read_copy_C (rb : RingbufC) (len : Nat) : RingbufC × List Nat :=
  read_copy_C_go (len + 1) rb len []

/-- One driver operation of the observational-equivalence claim. -/
inductive RbOp where
  | consume (n : Nat)
  | commit (n : Nat)
  | writeCopy (data : List Nat)
  | readCopy (len : Nat)
  deriving DecidableEq, Repr

/-- The amended restriction: explicit `commit`/`consume` move at least one
byte (`write_copy`/`read_copy` already only issue positive amounts). -/
def RbOpPos : RbOp → Prop
  | .consume n => 1 ≤ n
  | .commit n => 1 ≤ n
  | .writeCopy _ => True
  | .readCopy _ => True

def applyF (s : RingbufF × List Nat) (op : RbOp) : RingbufF × List Nat :=
  match op with
  | .consume n => (ws_ringbuf_consume_F s.1 n, s.2)
  | .commit n => (ws_ringbuf_commit_F s.1 n, s.2)
  | .writeCopy data =>
    let r := ws_ringbuf_write_copy_F s.1 data
    (r.1, s.2 ++ [r.2])
  | .readCopy len =>
    let r := ws_ringbuf_read_copy_F s.1 len
    (r.1, s.2 ++ r.2 ++ [r.2.length])

def applyC (s : RingbufC × List Nat) (op : RbOp) : RingbufC × List Nat :=
  match op with
  | .consume n => (ws_ringbuf_consume_C s.1 n, s.2)
  | .commit n => (ws_ringbuf_commit_C s.1 n, s.2)
  | .writeCopy data =>
    let r := ws_ringbuf_write_copy_C s.1 data
    (r.1, s.2 ++ [r.2])
  | .readCopy len =>
    let r := ws_ringbuf_read_copy_C s.1 len
    (r.1, s.2 ++ r.2 ++ [r.2.length])

def runOpsF (cap : Nat) (ops : List RbOp) : RingbufF × List Nat :=
  ops.foldl applyF (ws_ringbuf_init_F cap, [])

def runOpsC (cap : Nat) (ops : List RbOp) : RingbufC × List Nat :=
  ops.foldl applyC (ws_ringbuf_init_C cap, [])

/-- The simulation relation between the two variants on reachable states:
identical geometry and contents, the full flag tracking `count = capacity`
(with head = tail when set), and the flag-derived size equal to `count`. -/
def RbInv (f : RingbufF) (c : RingbufC) : Prop :=
  1 ≤ f.capacity ∧
  f.capacity = c.capacity ∧ f.buffer = c.buffer ∧ f.head = c.head ∧ f.tail = c.tail ∧
  f.head < f.capacity ∧ f.tail < f.capacity ∧ c.count ≤ c.capacity ∧
  (f.full = true ↔ c.count = c.capacity) ∧
  (f.full = true → f.head = f.tail) ∧
  ws_ringbuf_size_F f = c.count

theorem rbinv_init (cap : Nat) (hcap : 1 ≤ cap) :
    RbInv (ws_ringbuf_init_F cap) (ws_ringbuf_init_C cap) := by
  refine ⟨hcap, rfl, rfl, rfl, rfl, by simpa using hcap, by simpa using hcap, by simp [ws_ringbuf_init_C], ?_, by simp [ws_ringbuf_init_F], ?_⟩
  · simp [ws_ringbuf_init_F, ws_ringbuf_init_C]
    omega
  · simp [ws_ringbuf_init_F, ws_ringbuf_init_C, ws_ringbuf_size_F]

theorem rbinv_size {f : RingbufF} {c : RingbufC} (h : RbInv f c) :
    ws_ringbuf_size_F f = ws_ringbuf_size_C c := h.2.2.2.2.2.2.2.2.2.2

theorem rbinv_available {f : RingbufF} {c : RingbufC} (h : RbInv f c) :
    ws_ringbuf_available_F f = ws_ringbuf_available_C c := by
  obtain ⟨h1, h2, h3, h4, h5, h6, h7, h8, h9, h10, h11⟩ := h
  simp only [ws_ringbuf_available_F, ws_ringbuf_available_C, h11, h2]

theorem rbinv_is_empty {f : RingbufF} {c : RingbufC} (h : RbInv f c) :
    ws_ringbuf_is_empty_F f = ws_ringbuf_is_empty_C c := by
  obtain ⟨fc, fbuf, fh, ft, ffl⟩ := f
  obtain ⟨cc, cbuf, ch2, ct2, ccnt⟩ := c
  obtain ⟨h1, rfl, rfl, rfl, rfl, h6, h7, h8, h9, h10, h11⟩ := h
  dsimp only at h1 h6 h7 h8 h9 h10 h11 ⊢
  cases ffl with
  | true =>
    have hcc := h9.mp rfl
    simp only [ws_ringbuf_is_empty_F, ws_ringbuf_is_empty_C, Bool.not_true, Bool.false_and]
    symm
    rw [beq_eq_false_iff_ne]
    omega
  | false =>
    have h11b : (if ft ≤ fh then fh - ft else fc - (ft - fh)) = ccnt := by
      rw [← h11]
      simp [ws_ringbuf_size_F]
    simp only [ws_ringbuf_is_empty_F, ws_ringbuf_is_empty_C, Bool.not_false, Bool.true_and]
    rw [Bool.eq_iff_iff]
    simp only [beq_iff_eq]
    split at h11b <;> omega

theorem rbinv_is_full {f : RingbufF} {c : RingbufC} (h : RbInv f c) :
    ws_ringbuf_is_full_F f = ws_ringbuf_is_full_C c := by
  obtain ⟨h1, h2, h3, h4, h5, h6, h7, h8, h9, h10, h11⟩ := h
  simp only [ws_ringbuf_is_full_F, ws_ringbuf_is_full_C]
  rw [Bool.eq_iff_iff]
  simp only [beq_iff_eq]
  exact h9

theorem rbinv_peek_read {f : RingbufF} {c : RingbufC} (h : RbInv f c) :
    ws_ringbuf_peek_read_F f = ws_ringbuf_peek_read_C c := by
  obtain ⟨fc, fbuf, fh, ft, ffl⟩ := f
  obtain ⟨cc, cbuf, ch2, ct2, ccnt⟩ := c
  obtain ⟨h1, rfl, rfl, rfl, rfl, h6, h7, h8, h9, h10, h11⟩ := h
  dsimp only at h1 h6 h7 h8 h9 h10 h11 ⊢
  cases ffl with
  | true =>
    have hcc := h9.mp rfl
    have hht : fh = ft := h10 rfl
    have hne : ¬ fc = 0 := by omega
    simp [ws_ringbuf_peek_read_F, ws_ringbuf_peek_read_C, ws_ringbuf_size_F, hht, hcc, hne]
  | false =>
    simp only [ws_ringbuf_peek_read_F, ws_ringbuf_peek_read_C]
    rw [h11]
    simp

theorem rbinv_peek_write {f : RingbufF} {c : RingbufC} (h : RbInv f c) :
    ws_ringbuf_peek_write_F f = ws_ringbuf_peek_write_C c := by
  obtain ⟨fc, fbuf, fh, ft, ffl⟩ := f
  obtain ⟨cc, cbuf, ch2, ct2, ccnt⟩ := c
  obtain ⟨h1, rfl, rfl, rfl, rfl, h6, h7, h8, h9, h10, h11⟩ := h
  dsimp only at h1 h6 h7 h8 h9 h10 h11 ⊢
  cases ffl with
  | true =>
    have hcc := h9.mp rfl
    simp [ws_ringbuf_peek_write_F, ws_ringbuf_peek_write_C, hcc]
  | false =>
    have hcc : ¬ ccnt = fc := fun hx => by cases h9.mpr hx
    simp only [ws_ringbuf_peek_write_F, ws_ringbuf_peek_write_C,
      ws_ringbuf_available_F, ws_ringbuf_available_C]
    rw [h11]
    simp [hcc]

/-- `consume` of a positive amount preserves the simulation relation. -/
theorem rbinv_consume {f : RingbufF} {c : RingbufC} (h : RbInv f c) {n : Nat}
    (hn : 1 ≤ n) : RbInv (ws_ringbuf_consume_F f n) (ws_ringbuf_consume_C c n) := by
  obtain ⟨fc, fbuf, fh, ft, ffl⟩ := f
  obtain ⟨cc, cbuf, ch2, ct2, ccnt⟩ := c
  obtain ⟨h1, rfl, rfl, rfl, rfl, h6, h7, h8, h9, h10, h11⟩ := h
  dsimp only at h1 h6 h7 h8 h9 h10 h11 ⊢
  cases ffl with
  | true =>
    have hht : fh = ft := h10 rfl
    have hcc : ccnt = fc := h9.mp rfl
    simp only [ws_ringbuf_consume_F, ws_ringbuf_consume_C, ws_ringbuf_size_F]
    rw [if_neg (show ¬ (n = 0 ∨ fc = 0) by omega), hcc]
    refine ⟨h1, rfl, rfl, rfl, rfl, ?_, ?_, ?_, ?_, ?_, ?_⟩ <;>
      dsimp only [advance_index, ws_ringbuf_size_F] <;>
      (try split_ifs) <;> (try simp) <;> first | contradiction | omega
  | false =>
    have h11b : (if ft ≤ fh then fh - ft else fc - (ft - fh)) = ccnt := by
      rw [← h11]
      simp [ws_ringbuf_size_F]
    simp only [ws_ringbuf_consume_F, ws_ringbuf_consume_C, ws_ringbuf_size_F]
    rw [if_neg (show ¬ (n = 0 ∨ fc = 0) by omega), h11b]
    refine ⟨h1, rfl, rfl, rfl, rfl, ?_, ?_, ?_, ?_, ?_, ?_⟩ <;>
      dsimp only [advance_index, ws_ringbuf_size_F] <;>
      (try split_ifs at h11b ⊢) <;> (try simp) <;> first | contradiction | omega

/-- `commit` of a positive amount preserves the simulation relation. -/
theorem rbinv_commit {f : RingbufF} {c : RingbufC} (h : RbInv f c) {n : Nat}
    (hn : 1 ≤ n) : RbInv (ws_ringbuf_commit_F f n) (ws_ringbuf_commit_C c n) := by
  obtain ⟨fc, fbuf, fh, ft, ffl⟩ := f
  obtain ⟨cc, cbuf, ch2, ct2, ccnt⟩ := c
  obtain ⟨h1, rfl, rfl, rfl, rfl, h6, h7, h8, h9, h10, h11⟩ := h
  dsimp only at h1 h6 h7 h8 h9 h10 h11 ⊢
  cases ffl with
  | true =>
    have hht : fh = ft := h10 rfl
    have hcc : ccnt = fc := h9.mp rfl
    simp only [ws_ringbuf_commit_F, ws_ringbuf_commit_C, ws_ringbuf_available_F,
      ws_ringbuf_size_F]
    rw [if_neg (show ¬ (n = 0 ∨ fc = 0) by omega), hcc]
    refine ⟨h1, rfl, rfl, rfl, rfl, ?_, ?_, ?_, ?_, ?_, ?_⟩ <;>
      dsimp only [advance_index, ws_ringbuf_size_F] <;>
      (try split_ifs) <;> (try simp) <;> first | contradiction | omega
  | false =>
    have h11b : (if ft ≤ fh then fh - ft else fc - (ft - fh)) = ccnt := by
      rw [← h11]
      simp [ws_ringbuf_size_F]
    simp only [ws_ringbuf_commit_F, ws_ringbuf_commit_C, ws_ringbuf_available_F,
      ws_ringbuf_size_F]
    rw [if_neg (show ¬ (n = 0 ∨ fc = 0) by omega), h11b]
    refine ⟨h1, rfl, rfl, rfl, rfl, ?_, ?_, ?_, ?_, ?_, ?_⟩ <;>
      dsimp only [advance_index, ws_ringbuf_size_F] <;>
      (try split_ifs at h11b ⊢) <;> (try simp) <;> first | contradiction | omega

instance (op : RbOp) : Decidable (RbOpPos op) := by
  cases op <;> simp only [RbOpPos] <;> infer_instance

/-- Replacing both backing arrays by the same contents preserves the
simulation relation. -/
theorem rbinv_setbuf {f : RingbufF} {c : RingbufC} (h : RbInv f c) {X Y : List Nat}
    (hXY : X = Y) : RbInv { f with buffer := X } { c with buffer := Y } := by
  subst hXY
  obtain ⟨h1, h2, h3, h4, h5, h6, h7, h8, h9, h10, h11⟩ := h
  exact ⟨h1, h2, rfl, h4, h5, h6, h7, h8, h9, h10, h11⟩

/-- The `write_copy` loop preserves the simulation relation and writes the
same byte count through both variants. -/
theorem rbinv_write_go : ∀ (fuel : Nat) {f : RingbufF} {c : RingbufC}, RbInv f c →
    ∀ (data : List Nat) (w : Nat),
    RbInv (write_copy_F_go fuel f data w).1 (write_copy_C_go fuel c data w).1 ∧
      (write_copy_F_go fuel f data w).2 = (write_copy_C_go fuel c data w).2 := by
  intro fuel
  induction fuel with
  | zero => intro f c h data w; exact ⟨h, rfl⟩
  | succ fuel ih =>
    intro f c h data w
    simp only [write_copy_F_go, write_copy_C_go]
    by_cases hd : data.length = 0
    · rw [if_pos hd, if_pos hd]
      exact ⟨h, rfl⟩
    · rw [if_neg hd, if_neg hd]
      have hpw := rbinv_peek_write h
      cases hpwc : ws_ringbuf_peek_write_C c with
      | none =>
        rw [hpwc] at hpw
        simp only [hpw, hpwc]
        exact ⟨h, by simp⟩
      | some pr =>
        obtain ⟨off, space⟩ := pr
        rw [hpwc] at hpw
        simp only [hpw, hpwc]
        by_cases hs : space = 0
        · rw [if_pos hs, if_pos hs]
          exact ⟨h, rfl⟩
        · rw [if_neg hs, if_neg hs]
          have hbuf : f.buffer = c.buffer := h.2.2.1
          have hn2 : 1 ≤ (if data.length < space then data.length else space) := by
            split_ifs <;> omega
          exact ih (rbinv_commit (rbinv_setbuf h (by rw [hbuf])) hn2) _ _

/-- The `read_copy` loop preserves the simulation relation and delivers the
same bytes through both variants. -/
theorem rbinv_read_go : ∀ (fuel : Nat) {f : RingbufF} {c : RingbufC}, RbInv f c →
    ∀ (len : Nat) (out : List Nat),
    RbInv (read_copy_F_go fuel f len out).1 (read_copy_C_go fuel c len out).1 ∧
      (read_copy_F_go fuel f len out).2 = (read_copy_C_go fuel c len out).2 := by
  intro fuel
  induction fuel with
  | zero => intro f c h len out; exact ⟨h, rfl⟩
  | succ fuel ih =>
    intro f c h len out
    simp only [read_copy_F_go, read_copy_C_go]
    by_cases hl : len = 0
    · rw [if_pos hl, if_pos hl]
      exact ⟨h, rfl⟩
    · rw [if_neg hl, if_neg hl]
      have hpr := rbinv_peek_read h
      cases hprc : ws_ringbuf_peek_read_C c with
      | none =>
        rw [hprc] at hpr
        simp only [hpr, hprc]
        exact ⟨h, by simp⟩
      | some pr =>
        obtain ⟨off, have2⟩ := pr
        rw [hprc] at hpr
        simp only [hpr, hprc]
        by_cases hhv : have2 = 0
        · rw [if_pos hhv, if_pos hhv]
          exact ⟨h, rfl⟩
        · rw [if_neg hhv, if_neg hhv]
          have hbuf : f.buffer = c.buffer := h.2.2.1
          have hn2 : 1 ≤ (if len < have2 then len else have2) := by
            split_ifs <;> omega
          rw [hbuf]
          exact ih (rbinv_consume h hn2) _ _

/-- One driver operation preserves the simulation relation and the output
trace. -/
theorem rbinv_apply {f : RingbufF} {c : RingbufC} {oF oC : List Nat} (h : RbInv f c)
    (ho : oF = oC) (op : RbOp) (hop : RbOpPos op) :
    RbInv (applyF (f, oF) op).1 (applyC (c, oC) op).1 ∧
      (applyF (f, oF) op).2 = (applyC (c, oC) op).2 := by
  cases op with
  | consume n => exact ⟨rbinv_consume h hop, ho⟩
  | commit n => exact ⟨rbinv_commit h hop, ho⟩
  | writeCopy data =>
    have hw := rbinv_write_go (data.length + 1) h data 0
    refine ⟨hw.1, ?_⟩
    simp only [applyF, applyC, ws_ringbuf_write_copy_F, ws_ringbuf_write_copy_C]
    rw [hw.2, ho]
  | readCopy len =>
    have hr := rbinv_read_go (len + 1) h len []
    refine ⟨hr.1, ?_⟩
    simp only [applyF, applyC, ws_ringbuf_read_copy_F, ws_ringbuf_read_copy_C]
    rw [hr.2, ho]

/-- A whole positive-operation trace preserves the simulation relation and
the output trace. -/
theorem rbinv_run : ∀ (ops : List RbOp) {f : RingbufF} {c : RingbufC}
    {oF oC : List Nat}, RbInv f c → oF = oC → (∀ op ∈ ops, RbOpPos op) →
    RbInv (ops.foldl applyF (f, oF)).1 (ops.foldl applyC (c, oC)).1 ∧
      (ops.foldl applyF (f, oF)).2 = (ops.foldl applyC (c, oC)).2 := by
  intro ops
  induction ops with
  | nil => intro f c oF oC h ho _; exact ⟨h, ho⟩
  | cons op ops ih =>
    intro f c oF oC h ho hpos
    simp only [List.foldl_cons]
    have ha := rbinv_apply h ho op (hpos op (by simp))
    exact ih ha.1 ha.2 (fun op2 hop2 => hpos op2 (List.mem_cons_of_mem _ hop2))

/-- C10 (amended): started at the same capacity ≥ 1 and driven by the same
sequence of operations in which every explicit `commit`/`consume` moves at
least one byte, the count-based and full-flag ring buffers report the same
size, availability, emptiness and fullness, the same contiguous read/write
regions, hold the same bytes, and deliver the same bytes and return values
through `write_copy`/`read_copy`.  (Zero-byte commits and consumes break the
equivalence — see the counterexample.) -/
theorem C10_ringbuf_equivalence (cap : Nat) (hcap : 1 ≤ cap) (ops : List RbOp)
    (hpos : ∀ op ∈ ops, RbOpPos op) :
    (runOpsF cap ops).2 = (runOpsC cap ops).2 ∧
    ws_ringbuf_size_F (runOpsF cap ops).1 = ws_ringbuf_size_C (runOpsC cap ops).1 ∧
    ws_ringbuf_available_F (runOpsF cap ops).1 = ws_ringbuf_available_C (runOpsC cap ops).1 ∧
    ws_ringbuf_is_empty_F (runOpsF cap ops).1 = ws_ringbuf_is_empty_C (runOpsC cap ops).1 ∧
    ws_ringbuf_is_full_F (runOpsF cap ops).1 = ws_ringbuf_is_full_C (runOpsC cap ops).1 ∧
    ws_ringbuf_peek_read_F (runOpsF cap ops).1 = ws_ringbuf_peek_read_C (runOpsC cap ops).1 ∧
    ws_ringbuf_peek_write_F (runOpsF cap ops).1 = ws_ringbuf_peek_write_C (runOpsC cap ops).1 ∧
    (runOpsF cap ops).1.buffer = (runOpsC cap ops).1.buffer := by
  have h := @rbinv_run ops (ws_ringbuf_init_F cap) (ws_ringbuf_init_C cap) [] []
    (rbinv_init cap hcap) rfl hpos
  exact ⟨h.2, rbinv_size h.1, rbinv_available h.1, rbinv_is_empty h.1, rbinv_is_full h.1,
    rbinv_peek_read h.1, rbinv_peek_write h.1, h.1.2.2.1⟩

theorem C10_ringbuf_equivalence_witness :
    ((1 : Nat) ≤ 3 ∧
      ∀ op ∈ [RbOp.writeCopy [5, 6, 7, 8], RbOp.readCopy 2, RbOp.commit 1, RbOp.consume 1],
        RbOpPos op) ∧
    (runOpsF 3 [RbOp.writeCopy [5, 6, 7, 8], RbOp.readCopy 2, RbOp.commit 1, RbOp.consume 1]).2 =
      (runOpsC 3 [RbOp.writeCopy [5, 6, 7, 8], RbOp.readCopy 2, RbOp.commit 1, RbOp.consume 1]).2 :=
  ⟨⟨by decide, by decide⟩,
   (C10_ringbuf_equivalence 3 (by decide)
     [RbOp.writeCopy [5, 6, 7, 8], RbOp.readCopy 2, RbOp.commit 1, RbOp.consume 1]
     (by decide)).1⟩

/-- Counterexample to the zero-byte part of C10: on an empty one-byte
buffer, `commit(0)` flips the full-flag variant to full (its head==tail test
fires on the unmoved head) while the count variant's zero-byte guard leaves
it unchanged — the two implementations disagree and the full-flag state
visibly changed. -/
theorem C10_zero_commit_diverges :
    ws_ringbuf_is_full_F (ws_ringbuf_commit_F (ws_ringbuf_init_F 1) 0) = true ∧
      ws_ringbuf_is_full_C (ws_ringbuf_commit_C (ws_ringbuf_init_C 1) 0) = false ∧
      ws_ringbuf_is_full_F (ws_ringbuf_init_F 1) = false := by
  decide

end WibeSocket
